import Mathlib

/-!
Verification of the rigging Job controller (src/job.go, src/utils.go,
src/unnamed/part_000) against its natural-language specification.

The Go code is shallowly embedded: pure data (object metadata, job specs,
pods, errors) become Lean structures; each controller operation becomes a
function that threads an explicit event trace (remote API calls and log
lines) and consults an environment `Env` describing the remote cluster's
responses.  The environment sees only the remote calls issued so far
(never the log lines), mirroring the fact that the cluster cannot observe
the controller's logging.

Machine integers (int32 counters in JobStatus, retry attempt counts)
are embedded as `Int`; no arithmetic in this code can overflow an int32
in a way any claim depends on, and no modular wraparound is performed by
the source.
-/

namespace Rigging

/-! ## Data model -/

/-- Embeds k8s `metav1.ObjectMeta` (the fields the source reads or writes). -/
structure ObjectMeta where
  name : String
  namespace' : String
  uid : String
  selfLink : String
  resourceVersion : String
  labels : List (String × String)
  annotations : List (String × String)
deriving Repr, DecidableEq

/-- Embeds `metav1.LabelSelector` (only `MatchLabels` is used by the source). -/
structure LabelSelector where
  matchLabels : List (String × String)
deriving Repr, DecidableEq

/-- Embeds the pod template of a job spec (only its labels are touched). -/
structure PodTemplateSpec where
  labels : List (String × String)
deriving Repr, DecidableEq

/-- Embeds `batchv1.JobSpec`: `Completions *int32`, `Selector`, `Template`. -/
structure JobSpec where
  completions : Option Int
  selector : Option LabelSelector
  template : PodTemplateSpec
deriving Repr, DecidableEq

/-- Embeds `batchv1.JobStatus` (`Succeeded`, `Active` are int32 counters). -/
structure JobStatus where
  succeeded : Int
  active : Int
deriving Repr, DecidableEq

/-- Embeds `batchv1.Job`: TypeMeta (kind, apiVersion), ObjectMeta, spec, status. -/
structure Job where
  kind : String
  apiVersion : String
  meta : ObjectMeta
  spec : JobSpec
  status : JobStatus
deriving Repr, DecidableEq

/-- Embeds `v1.PodSpec` (only `NodeName` is read by the source). -/
structure PodSpec where
  nodeName : String
deriving Repr, DecidableEq

/-- Embeds `v1.Pod` (metadata and the node it is scheduled on). -/
structure Pod where
  meta : ObjectMeta
  spec : PodSpec
deriving Repr, DecidableEq

/-- Embeds `api.ObjectReference` (the fields the owner predicate reads). -/
structure ObjectReference where
  kind : String
  uid : String
deriving Repr, DecidableEq

/-- Embeds `api.SerializedReference`: carries the deserialized owner reference. -/
structure SerializedReference where
  reference : ObjectReference
deriving Repr, DecidableEq

/-- Embeds `unversioned.StatusDetails` (name, group, kind, causes). -/
structure StatusDetails where
  name : String
  group : String
  kind : String
  causes : List String
deriving Repr, DecidableEq

/-- Embeds the `unversioned.Status` carried by a k8s `errors.StatusError`:
HTTP code, machine-readable reason, human message, optional details. -/
structure K8sStatus where
  code : Int
  reason : String
  message : String
  details : Option StatusDetails
deriving Repr, DecidableEq

/-- The error taxonomy flowing through the source: `statusErr` is a raw
`*errors.StatusError` from the client; the next five are the `trace`
package's classified errors; `other` is any other Go error value.
`trace.Wrap` only attaches a stack trace and preserves classification,
so wrapping is the identity in this embedding. -/
inductive Error where
  | statusErr (status : K8sStatus)
  | notFound (msg : String)
  | alreadyExists (msg : String)
  | accessDenied (msg : String)
  | badParameter (msg : String)
  | compareFailed (msg : String)
  | other (msg : String)
deriving Repr, DecidableEq

/-! ## Constants

`KindJob`, `BatchAPIVersion`, `ControllerUIDLabel` and `AnnotationCreatedBy`
are rigging constants whose defining file is not under src/; their values
are modelled from the spec (well-known Job kind, default batch version,
auto-generated controller label, creation-provenance annotation key).
The claims depend only on these being fixed distinguished strings. -/

def KindJob : String := "Job"

def BatchAPIVersion : String := "batch/v1"

def ControllerUIDLabel : String := "controller-uid"

def AnnotationCreatedBy : String := "kubernetes.io/created-by"

/-- Embeds `http.StatusConflict`. -/
def StatusConflict : Int := 409

/-- Embeds `http.StatusNotFound`. -/
def StatusNotFound : Int := 404

/-- Embeds `http.StatusForbidden`. -/
def StatusForbidden : Int := 403

/-- Embeds `unversioned.StatusReasonAlreadyExists`. -/
def StatusReasonAlreadyExists : String := "AlreadyExists"

/-! ## Error translator (src/utils.go lines 241-283) -/

/-- Embeds `isEmptyDetails` (src/utils.go lines 274-283). -/
def isEmptyDetails : Option StatusDetails → Bool
  | none => true
  | some d => d.name == "" && d.group == "" && d.kind == "" && d.causes.length == 0

/-- Rendering of a `StatusDetails` value for message building (the Go code
prints the struct with the %v verb; the exact text is immaterial to every
claim, only that it is appended to the message). -/
def detailsString (d : StatusDetails) : String :=
  d.name ++ " " ++ d.group ++ " " ++ d.kind

/-- The message built by `ConvertErrorWithContext` (src/utils.go lines
254-260): the error text, extended with non-empty details, optionally
prefixed with the formatted context. -/
def convertMessage (s : K8sStatus) (format : String) : String :=
  let message := s.message
  let message :=
    if isEmptyDetails s.details then message
    else message ++ ", details: " ++ (match s.details with
      | some d => detailsString d
      | none => "")
  if format == "" then message else format ++ ": " ++ message

/-- The body of `ConvertErrorWithContext` for a non-nil error
(src/utils.go lines 249-271): a non-StatusError is returned unchanged;
a StatusError is mapped by HTTP code and reason, carrying the built
message. -/
def convertCore (e : Error) (format : String) : Error :=
  match e with
  | .statusErr s =>
    if s.code == StatusConflict && s.reason == StatusReasonAlreadyExists then
      .alreadyExists (convertMessage s format)
    else if s.code == StatusNotFound then
      .notFound (convertMessage s format)
    else if s.code == StatusForbidden then
      .accessDenied (convertMessage s format)
    else
      e
  | _ => e

/-- Embeds `ConvertErrorWithContext` (src/utils.go lines 245-272); a Go
`error` interface value is `Option Error` (`none` is nil).  The `format`
argument stands for the already-formatted context string. -/
def ConvertErrorWithContext (err : Option Error) (format : String) : Option Error :=
  match err with
  | none => none
  | some e => some (convertCore e format)

/-- Embeds `ConvertError` (src/utils.go lines 241-243). -/
def ConvertError (err : Option Error) : Option Error :=
  ConvertErrorWithContext err ""

/-- Embeds `trace.IsNotFound` on a nilable error. -/
def IsNotFound : Option Error → Bool
  | some (.notFound _) => true
  | _ => false

/-! ## Association-list embedding of Go maps -/

/-- Lookup in a Go map embedded as an association list. -/
def lookupKV {α : Type} : List (String × α) → String → Option α
  | [], _ => none
  | kv :: rest, k => if kv.1 == k then some kv.2 else lookupKV rest k

/-- Go map assignment `m[k] = v`: replace an existing entry for `k`, else add one. -/
def mapInsert {α : Type} : List (String × α) → String → α → List (String × α)
  | [], k, v => [(k, v)]
  | kv :: rest, k, v =>
    if kv.1 == k then (k, v) :: rest else kv :: mapInsert rest k v

/-- Go `delete(m, k)`: remove the entry for `k`. -/
def mapDelete (m : List (String × String)) (k : String) : List (String × String) :=
  m.filter (fun kv => kv.1 != k)

/-- The `labels.Set` built by `CollectPods` (src/utils.go lines 100-103):
`make(labels.Set)` then one assignment per entry of `matchLabels`;
a nil Go map (`none`) contributes nothing. -/
def buildSet : Option (List (String × String)) → List (String × String)
  | none => []
  | some kvs => kvs.foldl (fun acc kv => mapInsert acc kv.1 kv.2) []

/-! ## Remote environment and event traces -/

/-- One observable step of a controller operation: the five remote API
calls the source issues, plus log lines.  The `createJob` event records
the exact object sent to the cluster. -/
inductive Event where
  | getJob (ns name : String)
  | deleteJob (ns name : String)
  | createJob (ns : String) (job : Job)
  | listPods (ns : String) (selector : List (String × String))
  | deletePod (ns name : String)
  | log (msg : String)
deriving Repr, DecidableEq

/-- Whether an event is a log line (invisible to the remote system). -/
def Event.isLog : Event → Bool
  | .log _ => true
  | _ => false

/-- The remote calls of a trace, in order, with log lines removed.
Environments respond as a function of this projection only. -/
def remoteTrace (tr : List Event) : List Event :=
  tr.filter (fun e => !e.isLog)

/-- Modelled from the spec: a label selector matches a pod iff every
required key/value pair appears among the pod's labels with exact
equality (spec glossary); the empty selector matches every pod. -/
def selectorMatches (set : List (String × String)) (p : Pod) : Bool :=
  set.all (fun kv => lookupKV p.meta.labels kv.1 == some kv.2)

/-- The remote cluster, as the external collaborator of spec section 6.
Each endpoint is a deterministic function of the remote calls issued so
far (so deletion propagation and transient failures are expressible) and
of the request arguments.  `podsInNamespace` is the namespace's full pod
population; the List endpoint filters it by the supplied label selector.
`parseRef` embeds `ParseSerializedReference` (deserialization of the
creation-provenance annotation; its defining file is not under src/, so
it is kept abstract as part of the environment). -/
structure Env where
  getJob : List Event → String → String → Except Error Job
  deleteJob : List Event → String → String → Option Error
  createJob : List Event → String → Job → Except Error Job
  podsInNamespace : List Event → String → Except Error (List Pod)
  deletePod : List Event → String → String → Option Error
  parseRef : String → Except Error SerializedReference

/-- Modelled from the spec: `formatMeta` renders the object's formatted
identity (its defining file is not under src/); no claim depends on the
exact rendering. -/
def formatMeta (m : ObjectMeta) : String :=
  m.namespace' ++ "/" ++ m.name

/-! ## PodCollector (src/utils.go lines 97-131) -/

/-- The per-pod loop of `CollectPods` (src/utils.go lines 112-129):
a pod without the creation-provenance annotation is skipped; a pod whose
annotation fails to deserialize is logged and skipped; a pod whose parsed
reference satisfies `fn` is stored under its node name (Go map
assignment, so a later pod on the same node overwrites an earlier one).
Returns the emitted log events and the accumulated mapping. -/
def collectLoop (parse : String → Except Error SerializedReference)
    (fn : ObjectReference → Bool) :
    List Pod → List (String × Pod) → List Event × List (String × Pod)
  | [], acc => ([], acc)
  | pod :: rest, acc =>
    match lookupKV pod.meta.annotations AnnotationCreatedBy with
    | none => collectLoop parse fn rest acc
    | some createdBy =>
      match parse createdBy with
      | .error _ =>
        let (evts, r) := collectLoop parse fn rest acc
        (.log "failed to deserialize created-by reference" :: evts, r)
      | .ok ref =>
        if fn ref.reference then
          let (evts, r) := collectLoop parse fn rest
            (mapInsert acc pod.spec.nodeName pod)
          (.log ("found pod " ++ formatMeta pod.meta ++ " on node "
              ++ pod.spec.nodeName) :: evts, r)
        else
          collectLoop parse fn rest acc

/-- Embeds `CollectPods` (src/utils.go lines 97-131): build a label set
from `matchLabels` (a nil map is `none`), list the namespace's pods
matching it, then run the per-pod loop. -/
def CollectPods (env : Env) (namespace' : String)
    (matchLabels : Option (List (String × String)))
    (fn : ObjectReference → Bool) (tr : List Event) :
    List Event × Except Error (List (String × Pod)) :=
  let set := buildSet matchLabels
  let r := env.podsInNamespace (remoteTrace tr) namespace'
  let tr := tr ++ [Event.listPods namespace' set]
  match r with
  | .error e => (tr, .error (convertCore e ""))
  | .ok items =>
    let items := items.filter (selectorMatches set)
    let (evts, acc) := collectLoop env.parseRef fn items []
    (tr ++ evts, .ok acc)

/-- The selector labels a job contributes to pod collection
(src/job.go lines 155-158 and part_000 lines 166-169): nil when the job
has no selector. -/
def jobSelectorLabels (j : Job) : Option (List (String × String)) :=
  match j.spec.selector with
  | some sel => some sel.matchLabels
  | none => none

/-- The owner predicate closure of `collectPods` (src/job.go lines
159-161 and part_000 lines 170-172): the reference names a Job with the
collected job's UID. -/
def ownerPred (j : Job) (ref : ObjectReference) : Bool :=
  ref.kind == KindJob && ref.uid == j.meta.uid

/-- Embeds the `collectPods` method (src/job.go lines 154-163 and
part_000 lines 165-174; both versions are identical): collect pods in
the job's namespace by its selector labels and owner predicate,
converting a collection error.  The receiver contributes only its logger
and client handle, so it is not a parameter here. -/
def collectPods (env : Env) (job : Job) (tr : List Event) :
    List Event × Except Error (List (String × Pod)) :=
  let (tr, r) := CollectPods env job.meta.namespace' (jobSelectorLabels job)
    (ownerPred job) tr
  match r with
  | .ok pods => (tr, .ok pods)
  | .error e => (tr, .error (convertCore e ""))

/-! ## Construction (src/job.go lines 29-41, 170-184; part_000 lines 29-41, 181-195) -/

/-- Embeds `JobConfig`: the job descriptor is a Go pointer (`none` is
nil), and only the presence of the client handle matters to the source. -/
structure JobConfig where
  job : Option Job
  clientset : Bool
deriving Repr, DecidableEq

/-- Embeds `JobControl`: a constructed controller always carries the
validated configuration. -/
structure JobControl where
  job : Job
  clientset : Bool
deriving Repr, DecidableEq

/-- Result of running Go code that may return a value, return an error,
or dereference a nil pointer (a runtime panic, not a returned error). -/
inductive Outcome (α : Type) where
  | ok (a : α)
  | err (e : Error)
  | panics
deriving Repr, DecidableEq

/-- Embeds `checkAndSetDefaults` (src/job.go lines 175-184, identical in
part_000 lines 186-195): a missing client handle is BadParameter; then
`c.Job.Kind = KindJob` is assigned unconditionally (dereferencing the
descriptor, hence `panics` on nil), and APIVersion is defaulted only
when empty. -/
def checkAndSetDefaults (c : JobConfig) : Outcome JobConfig :=
  if c.clientset = false then
    .err (.badParameter "missing parameter Clientset")
  else
    match c.job with
    | none => .panics
    | some j =>
      let j := { j with kind := KindJob }
      let j := if j.apiVersion == "" then { j with apiVersion := BatchAPIVersion } else j
      .ok { c with job := some j }

/-- Embeds `NewJobControl` (src/job.go lines 29-41, identical in
part_000): validate and default the configuration, then bind the logging
context (which dereferences the descriptor again via `formatMeta`, hence
the second `panics` arm, unreachable after a successful check). -/
def NewJobControl (config : JobConfig) : Outcome JobControl :=
  match checkAndSetDefaults config with
  | .err e => .err e
  | .panics => .panics
  | .ok cfg =>
    match cfg.job with
    | some j => .ok { job := j, clientset := cfg.clientset }
    | none => .panics

/-! ## RetryEngine (src/utils.go lines 133-149)

`retry` is embedded over an abstract probe: `fn i` is the result of the
i-th call of `fn` (0-indexed), and `cancelled i` tells whether the
context is observed as cancelled at the select of loop iteration `i`.
Real elapsed time is abstracted to a `wait` trace entry standing for the
`time.After(period)` arm of the select. -/

/-- One observable step of `retry`. -/
inductive RetryEvent where
  | call (i : Nat)
  | wait
  | ctxDone
deriving Repr, DecidableEq

/-- The loop body of `retry` (src/utils.go lines 138-147):
`for i := 1; i < times && err != nil; i += 1` with the select between
`ctx.Done()` (return the current error) and the period timer (call `fn`
again).  `fuel` is the number of loop iterations still permitted
(`times - i`) and `i` the current iteration index. -/
def retryGo (cancelled : Nat → Bool) (fn : Nat → Option Error) :
    Nat → Nat → Option Error → List RetryEvent × Option Error
  | 0, _, err => ([], err)
  | fuel + 1, i, err =>
    match err with
    | none => ([], none)
    | some e =>
      if cancelled i then ([.ctxDone], some e)
      else
        let r := fn i
        let (evts, res) := retryGo cancelled fn fuel (i + 1) r
        (.wait :: .call i :: evts, res)

/-- Embeds `retry` (src/utils.go lines 133-149): `times < 1` is an
immediate success with no call; otherwise `fn` is called once and the
loop runs with `times - 1` permitted iterations, returning the result of
the last call made. -/
def retry (cancelled : Nat → Bool) (fn : Nat → Option Error) (times : Int) :
    List RetryEvent × Option Error :=
  if times < 1 then ([], none)
  else
    let r := fn 0
    let (evts, res) := retryGo cancelled fn (times - 1).toNat 1 r
    (.call 0 :: evts, res)

/-- The trace produced by `fuel` consecutive failing loop iterations
starting at index `i`: each waits one period and calls `fn`. -/
def failTrace : Nat → Nat → List RetryEvent
  | 0, _ => []
  | fuel + 1, i => .wait :: .call i :: failTrace fuel (i + 1)

/-! ## Retry instantiations used by src/job.go

`waitForObjectDeletion`, `withExponentialBackoff` and `deletePods` are
called by src/job.go but their defining file is not under src/. -/

/-- Modelled from the spec: `waitForObjectDeletion` is a bounded
fixed-interval poll of the fetch-by-name probe; a NotFound result is the
success condition, any other fetch error aborts the wait and surfaces
the error, a nil result (object still resolvable) polls again, and the
bound is exhausted with a CompareFailed error.  The probe src/job.go
passes is `ConvertError` of a Get, inlined here. -/
def waitForObjectDeletion (env : Env) (ns name : String) :
    Nat → List Event → List Event × Option Error
  | 0, tr => (tr, some (.compareFailed "object still exists"))
  | n + 1, tr =>
    let r := env.getJob (remoteTrace tr) ns name
    let tr := tr ++ [Event.getJob ns name]
    let err := match r with
      | .ok _ => none
      | .error e => some (convertCore e "")
    if IsNotFound err then (tr, none)
    else
      match err with
      | some e => (tr, some e)
      | none => waitForObjectDeletion env ns name n tr

/-- Bound of the deletion-propagation poll (spec: a bounded poll with
`DefaultRetryAttempts`-style defaults; the exact bound is immaterial to
every claim). -/
def DefaultWaitAttempts : Nat := 10

/-- Modelled from the spec: `withExponentialBackoff` retries the probe
with a growing interval under the same exhaustion contract as `retry`
(last error verbatim); the interval lengths are abstracted away.
`fuel` is the number of retries remaining after the current call. -/
def withExponentialBackoff
    (fuel : Nat) (fn : List Event → List Event × Option Error)
    (tr : List Event) : List Event × Option Error :=
  match fuel with
  | 0 => fn tr
  | n + 1 =>
    match fn tr with
    | (tr, none) => (tr, none)
    | (tr, some _) => withExponentialBackoff n fn tr

/-- Retry budget of the backoff create (exact value immaterial to every claim). -/
def DefaultBackoffFuel : Nat := 10

/-- A per-pod deletion loop: log the pod, delete it remotely, abort with
the converted error on failure.  This is the literal loop of part_000
lines 68-74 and 123-131 (which differ only in the logged text, supplied
as `msg`), and the model of the `deletePods` helper src/job.go line 78
delegates to. -/
def podDeleteLoop (env : Env) (ns : String) (msg : Pod → String) :
    List (String × Pod) → List Event → List Event × Option Error
  | [], tr => (tr, none)
  | (_, pod) :: rest, tr =>
    let tr := tr ++ [Event.log (msg pod)]
    let r := env.deletePod (remoteTrace tr) ns pod.meta.name
    let tr := tr ++ [Event.deletePod ns pod.meta.name]
    match r with
    | some e => (tr, some (convertCore e ""))
    | none => podDeleteLoop env ns msg rest tr

/-- Modelled from the spec: `deletePods` (called at src/job.go line 78)
explicitly deletes every previously collected pod, one remote call per
pod, logging each deletion and surfacing the first converted error. -/
def deletePods (env : Env) (ns : String) (pods : List (String × Pod))
    (tr : List Event) : List Event × Option Error :=
  podDeleteLoop env ns (fun p => "deleting pod " ++ p.meta.name) pods tr

/-! ## ResourceController operations -/

/-- The identity-stripping and label-cleanup step of both Upsert versions
(src/job.go lines 108-115, part_000 lines 109-116): clear UID, self
link and resource version; when a selector is present, delete the
auto-generated controller-UID label from the selector's match labels and
from the pod template's labels. -/
def stripJob (j : Job) : Job :=
  let j := { j with meta :=
    { j.meta with uid := "", selfLink := "", resourceVersion := "" } }
  match j.spec.selector with
  | none => j
  | some sel =>
    { j with spec := { j.spec with
        selector := some { sel with
          matchLabels := mapDelete sel.matchLabels ControllerUIDLabel },
        template := { labels := mapDelete j.spec.template.labels ControllerUIDLabel } } }

/-- Embeds `Status` (src/job.go lines 124-152, identical logic in
part_000 lines 135-163): fetch the job; with no completions target the
job is complete iff some pod succeeded and none is active; with a target
it is complete iff the succeeded count reached it; an incomplete job is
a CompareFailed error carrying the formatted identity and both counters. -/
def Status (env : Env) (c : JobControl) (tr : List Event) :
    List Event × Option Error :=
  let ns := c.job.meta.namespace'
  let name := c.job.meta.name
  let r := env.getJob (remoteTrace tr) ns name
  let tr := tr ++ [Event.getJob ns name]
  match r with
  | .error e => (tr, some (convertCore e ""))
  | .ok job =>
    let succeeded := job.status.succeeded
    let active := job.status.active
    let complete : Bool :=
      match job.spec.completions with
      | none => if succeeded > 0 ∧ active = 0 then true else false
      | some completions => if succeeded ≥ completions then true else false
    if complete then (tr, none)
    else
      (tr, some (.compareFailed ("job " ++ formatMeta job.meta
        ++ " not yet complete (succeeded: " ++ toString succeeded
        ++ ", active: " ++ toString active ++ ")")))

/-- Embeds `Delete` of src/job.go (lines 43-80): fetch (converted error
is fatal), collect the current job's pods, issue a foreground-propagation
delete, wait for the object to stop resolving, log-only branch on
`cascade`, then delete the collected pods. -/
def Delete (env : Env) (c : JobControl) (cascade : Bool) (tr : List Event) :
    List Event × Option Error :=
  let ns := c.job.meta.namespace'
  let name := c.job.meta.name
  let tr := tr ++ [Event.log ("delete " ++ formatMeta c.job.meta)]
  let r := env.getJob (remoteTrace tr) ns name
  let tr := tr ++ [Event.getJob ns name]
  match r with
  | .error e => (tr, some (convertCore e ""))
  | .ok currentJob =>
    match collectPods env currentJob tr with
    | (tr, .error e) => (tr, some e)
    | (tr, .ok currentPods) =>
      let tr := tr ++ [Event.log "deleting current job"]
      let r := env.deleteJob (remoteTrace tr) ns name
      let tr := tr ++ [Event.deleteJob ns name]
      match r with
      | some e => (tr, some (convertCore e ""))
      | none =>
        match waitForObjectDeletion env ns name DefaultWaitAttempts tr with
        | (tr, some e) => (tr, some e)
        | (tr, none) =>
          let tr := if cascade then tr
            else tr ++ [Event.log "cascade not set, returning"]
          deletePods env ns currentPods tr

/-- Embeds `Delete` of part_000 (lines 43-76): fetch, collect pods,
delete the job (no propagation option, no wait), log-only branch on
`cascade`, then delete each collected pod inline. -/
def DeleteP0 (env : Env) (c : JobControl) (cascade : Bool) (tr : List Event) :
    List Event × Option Error :=
  let ns := c.job.meta.namespace'
  let name := c.job.meta.name
  let tr := tr ++ [Event.log ("delete " ++ formatMeta c.job.meta)]
  let r := env.getJob (remoteTrace tr) ns name
  let tr := tr ++ [Event.getJob ns name]
  match r with
  | .error e => (tr, some (convertCore e ""))
  | .ok currentJob =>
    match collectPods env currentJob tr with
    | (tr, .error e) => (tr, some e)
    | (tr, .ok currentPods) =>
      let tr := tr ++ [Event.log "deleting current job"]
      let r := env.deleteJob (remoteTrace tr) ns name
      let tr := tr ++ [Event.deleteJob ns name]
      match r with
      | some e => (tr, some (convertCore e ""))
      | none =>
        let tr := if cascade then tr
          else tr ++ [Event.log "cascade not set, returning"]
        let tr := tr ++ [Event.log "deleting pods"]
        podDeleteLoop env ns (fun p => "deleting pod " ++ p.meta.name)
          currentPods tr

/-- The fetch step shared by both Upsert versions (src/job.go lines
86-94, part_000 lines 82-90): convert the fetch error; NotFound means
"nothing to replace" (`ok none`), any other error is fatal. -/
def upsertFetch (r : Except Error Job) : Except Error (Option Job) :=
  match r with
  | .ok j => .ok (some j)
  | .error e =>
    let e' := convertCore e ""
    if IsNotFound (some e') then .ok none else .error e'

/-- The creation tail of the src/job.go `Upsert` (lines 107-121), run on
both fetch outcomes: log, strip the desired object's server-assigned
identity and auto-generated labels, then create under exponential
backoff.  (part_000 inlines its own direct-create tail in `UpsertP0`.) -/
def upsertCreate (env : Env) (c : JobControl) (fuel : Nat) (tr : List Event) :
    List Event × Option Error :=
  let ns := c.job.meta.namespace'
  let tr := tr ++ [Event.log "creating new job"]
  let j := stripJob c.job
  withExponentialBackoff fuel (fun tr =>
    let r := env.createJob (remoteTrace tr) ns j
    let tr := tr ++ [Event.createJob ns j]
    (tr, match r with
      | .ok _ => none
      | .error e => some (convertCore e ""))) tr

/-- Embeds `Upsert` of src/job.go (lines 82-122): fetch the current
object (NotFound means create-only); when it exists, construct a
controller for the *current* object and run its `Delete` (which removes
the old job's pods before returning), then create the stripped desired
object under exponential backoff. -/
def Upsert (env : Env) (c : JobControl) (tr : List Event) :
    List Event × Option Error :=
  let ns := c.job.meta.namespace'
  let name := c.job.meta.name
  let tr := tr ++ [Event.log ("upsert " ++ formatMeta c.job.meta)]
  let r := env.getJob (remoteTrace tr) ns name
  let tr := tr ++ [Event.getJob ns name]
  match upsertFetch r with
  | .error e => (tr, some e)
  | .ok none => upsertCreate env c DefaultBackoffFuel tr
  | .ok (some currentJob) =>
    match NewJobControl { job := some currentJob, clientset := c.clientset } with
    | .err e => (tr, some (convertCore e ""))
    | .panics => (tr, some (.other "panic"))
    | .ok control =>
      match Delete env control true tr with
      | (tr, some e) => (tr, some (convertCore e ""))
      | (tr, none) => upsertCreate env c DefaultBackoffFuel tr

/-- Embeds `Upsert` of part_000 (lines 78-133): fetch the current object
(NotFound means create-only); when it exists, collect its pods and
delete it; create the stripped desired object; only after a successful
creation, delete the pods collected from the old object. -/
def UpsertP0 (env : Env) (c : JobControl) (tr : List Event) :
    List Event × Option Error :=
  let ns := c.job.meta.namespace'
  let name := c.job.meta.name
  let tr := tr ++ [Event.log ("upsert " ++ formatMeta c.job.meta)]
  let r := env.getJob (remoteTrace tr) ns name
  let tr := tr ++ [Event.getJob ns name]
  match upsertFetch r with
  | .error e => (tr, some e)
  | .ok curr =>
    let phase1 : List Event × Except (Option Error) (Option (List (String × Pod))) :=
      match curr with
      | none => (tr, .ok none)
      | some currentJob =>
        let tr := tr ++ [Event.log ("currentJob: " ++ currentJob.meta.uid)]
        match collectPods env currentJob tr with
        | (tr, .error e) => (tr, .error (some e))
        | (tr, .ok currentPods) =>
          let tr := tr ++ [Event.log "deleting current job"]
          let r := env.deleteJob (remoteTrace tr) ns name
          let tr := tr ++ [Event.deleteJob ns name]
          match r with
          | some e => (tr, .error (some (convertCore e "")))
          | none => (tr, .ok (some currentPods))
    match phase1 with
    | (tr, .error e) => (tr, e)
    | (tr, .ok currentPods?) =>
      let tr := tr ++ [Event.log "creating new job"]
      let j := stripJob c.job
      let r := env.createJob (remoteTrace tr) ns j
      let tr := tr ++ [Event.createJob ns j]
      match r with
      | .error e => (tr, some (convertCore e ""))
      | .ok _ =>
        let tr := tr ++ [Event.log "job created successfully"]
        match currentPods? with
        | none => (tr, none)
        | some currentPods =>
          let tr := tr ++ [Event.log "deleting pods created by previous job"]
          podDeleteLoop env ns (fun p => "deleting pod " ++ formatMeta p.meta)
            currentPods tr

/-! ## Derived definitions and concrete fixtures used by the theorems -/

/-- The effect of `checkAndSetDefaults` on a non-nil descriptor: the kind
is overwritten with the well-known Job kind unconditionally, the
apiVersion is defaulted only when empty. -/
def defaulted (j : Job) : Job :=
  let j := { j with kind := KindJob }
  if j.apiVersion == "" then { j with apiVersion := BatchAPIVersion } else j

/-- Whether the collection loop keeps a pod: it carries the
creation-provenance annotation, the annotation deserializes, and the
parsed reference satisfies the owner predicate. -/
def qualifies (parse : String → Except Error SerializedReference)
    (fn : ObjectReference → Bool) (p : Pod) : Bool :=
  match lookupKV p.meta.annotations AnnotationCreatedBy with
  | none => false
  | some createdBy =>
    match parse createdBy with
    | .error _ => false
    | .ok ref => fn ref.reference

/-- A job fixture for witnesses: no completions target, one pod
succeeded, none active. -/
def jobDone : Job :=
  { kind := "Job", apiVersion := "batch/v1",
    meta := { name := "j", namespace' := "ns", uid := "u", selfLink := "",
              resourceVersion := "", labels := [], annotations := [] },
    spec := { completions := none, selector := none, template := { labels := [] } },
    status := { succeeded := 1, active := 0 } }

/-- An environment that always returns `jobDone` for the fetch and
succeeds on every other endpoint. -/
def envDone : Env :=
  { getJob := fun _ _ _ => .ok jobDone,
    deleteJob := fun _ _ _ => none,
    createJob := fun _ _ j => .ok j,
    podsInNamespace := fun _ _ => .ok [],
    deletePod := fun _ _ _ => none,
    parseRef := fun _ => .error (.other "no reference") }

/-- A job descriptor that already carries a kind and an apiVersion. -/
def jobPreset : Job :=
  { kind := "Foo", apiVersion := "v7",
    meta := { name := "j", namespace' := "ns", uid := "", selfLink := "",
              resourceVersion := "", labels := [], annotations := [] },
    spec := { completions := none, selector := none, template := { labels := [] } },
    status := { succeeded := 0, active := 0 } }

/-- A pod on node "node1" carrying a deserializable provenance annotation. -/
def podA : Pod :=
  { meta := { name := "p-a", namespace' := "ns", uid := "pa", selfLink := "",
              resourceVersion := "", labels := [],
              annotations := [(AnnotationCreatedBy, "good")] },
    spec := { nodeName := "node1" } }

/-- A second pod on the same node "node1", also with a matching annotation. -/
def podB : Pod :=
  { meta := { name := "p-b", namespace' := "ns", uid := "pb", selfLink := "",
              resourceVersion := "", labels := [],
              annotations := [(AnnotationCreatedBy, "good")] },
    spec := { nodeName := "node1" } }

/-- An environment whose namespace holds `podA` then `podB`; the
annotation value "good" deserializes to an owner reference naming a Job
with UID "u1", anything else fails to deserialize. -/
def envTwoPods : Env :=
  { getJob := fun _ _ _ => .error (.notFound "absent"),
    deleteJob := fun _ _ _ => none,
    createJob := fun _ _ j => .ok j,
    podsInNamespace := fun _ _ => .ok [podA, podB],
    deletePod := fun _ _ _ => none,
    parseRef := fun s =>
      if s == "good" then .ok { reference := { kind := "Job", uid := "u1" } }
      else .error (.other "malformed reference") }

/-- The owner predicate accepting a Job owner with UID "u1". -/
def ownerU1 (ref : ObjectReference) : Bool :=
  ref.kind == KindJob && ref.uid == "u1"

/-- A job with no selector, namespace "ns" and UID "u1". -/
def jobNoSel : Job :=
  { kind := "Job", apiVersion := "batch/v1",
    meta := { name := "j", namespace' := "ns", uid := "u1", selfLink := "",
              resourceVersion := "", labels := [], annotations := [] },
    spec := { completions := none, selector := none, template := { labels := [] } },
    status := { succeeded := 0, active := 0 } }

/-- The mapping the controller collects for `job` when the namespace's
pod population is `podlist`. -/
def collectedPods (env : Env) (job : Job) (podlist : List Pod) :
    List (String × Pod) :=
  (collectLoop env.parseRef (ownerPred job)
    (podlist.filter (selectorMatches (buildSet (jobSelectorLabels job)))) []).2

/-- The trace of a successful pod-deletion loop: a log line and a delete
call per pod. -/
def podDeleteTrace (ns : String) (msg : Pod → String) :
    List (String × Pod) → List Event
  | [] => []
  | (_, pod) :: rest =>
    Event.log (msg pod) :: Event.deletePod ns pod.meta.name ::
      podDeleteTrace ns msg rest

/-- The desired job handed to Upsert in the replace-order run: it still
carries server-assigned identity from a previous generation. -/
def jobDesired : Job :=
  { kind := "Job", apiVersion := "batch/v1",
    meta := { name := "j", namespace' := "ns", uid := "new", selfLink := "sl",
              resourceVersion := "rv", labels := [], annotations := [] },
    spec := { completions := none, selector := none, template := { labels := [] } },
    status := { succeeded := 0, active := 0 } }

/-- The old remote job the replace-order run replaces. -/
def jobOld : Job :=
  { kind := "Job", apiVersion := "batch/v1",
    meta := { name := "j", namespace' := "ns", uid := "u1", selfLink := "",
              resourceVersion := "1", labels := [], annotations := [] },
    spec := { completions := none, selector := none, template := { labels := [] } },
    status := { succeeded := 0, active := 0 } }

/-- The one pod owned by `jobOld`. -/
def podOld : Pod :=
  { meta := { name := "p0", namespace' := "ns", uid := "pu", selfLink := "",
              resourceVersion := "", labels := [],
              annotations := [(AnnotationCreatedBy, "good")] },
    spec := { nodeName := "node1" } }

/-- Environment of the replace-order run: the old job resolves by name
until its delete call is issued and is NotFound afterwards; the
namespace holds `podOld`; every mutation succeeds. -/
def envReplace : Env :=
  { getJob := fun rtr _ _ =>
      if Event.deleteJob "ns" "j" ∈ rtr then .error (.notFound "not found")
      else .ok jobOld,
    deleteJob := fun _ _ _ => none,
    createJob := fun _ _ j => .ok j,
    podsInNamespace := fun _ _ => .ok [podOld],
    deletePod := fun _ _ _ => none,
    parseRef := fun s =>
      if s == "good" then .ok { reference := { kind := "Job", uid := "u1" } }
      else .error (.other "malformed reference") }

/-- Like `envReplace` but the old job keeps resolving (the part_000
`Upsert` issues no propagation poll, so a static fetch suffices). -/
def envStatic : Env :=
  { getJob := fun _ _ _ => .ok jobOld,
    deleteJob := fun _ _ _ => none,
    createJob := fun _ _ j => .ok j,
    podsInNamespace := fun _ _ => .ok [podOld],
    deletePod := fun _ _ _ => none,
    parseRef := fun s =>
      if s == "good" then .ok { reference := { kind := "Job", uid := "u1" } }
      else .error (.other "malformed reference") }

/-- An environment where the job is always absent and creation succeeds. -/
def envAbsent : Env :=
  { getJob := fun _ _ _ => .error (.notFound "no such job"),
    deleteJob := fun _ _ _ => none,
    createJob := fun _ _ j => .ok j,
    podsInNamespace := fun _ _ => .ok [],
    deletePod := fun _ _ _ => none,
    parseRef := fun _ => .error (.other "no reference") }

/-- A concrete 404 remote status. -/
def status404 : K8sStatus :=
  { code := 404, reason := "NotFound", message := "gone", details := none }

/-- A concrete 500 remote status. -/
def status500 : K8sStatus :=
  { code := 500, reason := "Internal", message := "boom", details := none }

/-! ## C3: the error translator -/

/-- C3: for every input error, the translator returns nil on nil, passes
any non-status-error value through unchanged, and maps a status error by
HTTP code and reason: 409 with the already-exists reason gives
AlreadyExists, 404 gives NotFound, 403 gives AccessDenied, and every
other code (including 409 with a different reason) returns the original
error value unchanged. -/
theorem convertError_spec (err : Option Error) (format : String) :
    (err = none → ConvertErrorWithContext err format = none)
    ∧ (∀ e, err = some e → (∀ s, e ≠ .statusErr s) →
        ConvertErrorWithContext err format = some e)
    ∧ (∀ s, err = some (.statusErr s) →
        s.code = StatusConflict → s.reason = StatusReasonAlreadyExists →
        ConvertErrorWithContext err format =
          some (.alreadyExists (convertMessage s format)))
    ∧ (∀ s, err = some (.statusErr s) → s.code = StatusNotFound →
        ConvertErrorWithContext err format =
          some (.notFound (convertMessage s format)))
    ∧ (∀ s, err = some (.statusErr s) → s.code = StatusForbidden →
        ConvertErrorWithContext err format =
          some (.accessDenied (convertMessage s format)))
    ∧ (∀ s, err = some (.statusErr s) →
        s.code = StatusConflict → s.reason ≠ StatusReasonAlreadyExists →
        ConvertErrorWithContext err format = some (.statusErr s))
    ∧ (∀ s, err = some (.statusErr s) →
        s.code ≠ StatusConflict → s.code ≠ StatusNotFound → s.code ≠ StatusForbidden →
        ConvertErrorWithContext err format = some (.statusErr s)) := by
  refine ⟨?_, ?_, ?_, ?_, ?_, ?_, ?_⟩
  · rintro rfl; rfl
  · rintro e rfl hne
    cases e
    case statusErr s => exact absurd rfl (hne s)
    all_goals rfl
  · rintro s rfl hc hr
    simp [ConvertErrorWithContext, convertCore, hc, hr]
  · rintro s rfl hc
    simp [ConvertErrorWithContext, convertCore, hc, StatusNotFound,
      StatusConflict]
  · rintro s rfl hc
    simp [ConvertErrorWithContext, convertCore, hc, StatusForbidden,
      StatusConflict, StatusNotFound]
  · rintro s rfl hc hr
    simp [ConvertErrorWithContext, convertCore, hc, hr, StatusConflict,
      StatusNotFound, StatusForbidden]
  · rintro s rfl h1 h2 h3
    simp [ConvertErrorWithContext, convertCore, h1, h2, h3]

/-- Witness for C3: a concrete 404 status error is translated to
NotFound, a concrete 500 one is returned unchanged. -/
theorem convertError_spec_witness :
    ConvertErrorWithContext (some (.statusErr status404)) "" =
      some (.notFound (convertMessage status404 ""))
    ∧ ConvertErrorWithContext (some (.statusErr status500)) "" =
      some (.statusErr status500) := by
  constructor
  · exact (convertError_spec (some (.statusErr status404)) "").2.2.2.1 _ rfl rfl
  · exact (convertError_spec (some (.statusErr status500)) "").2.2.2.2.2.2 _ rfl
      (by decide) (by decide) (by decide)

/-! ## C2: Status completion semantics -/

/-- C2: when the fetch succeeds, Status succeeds iff the job is complete
(no completions target: some pod succeeded and none active; target `n`:
at least `n` succeeded), and otherwise returns a CompareFailed error
whose message contains both counters. -/
theorem Status_spec (env : Env) (c : JobControl) (tr : List Event) (job : Job)
    (hget : env.getJob (remoteTrace tr) c.job.meta.namespace' c.job.meta.name
      = .ok job) :
    (job.spec.completions = none →
      ((Status env c tr).2 = none ↔
        job.status.succeeded > 0 ∧ job.status.active = 0))
    ∧ (∀ n, job.spec.completions = some n →
      ((Status env c tr).2 = none ↔ job.status.succeeded ≥ n))
    ∧ ((Status env c tr).2 ≠ none →
      ∃ pre mid post, (Status env c tr).2 = some (.compareFailed
        (pre ++ toString job.status.succeeded ++ mid
          ++ toString job.status.active ++ post))) := by
  have hs : Status env c tr = (tr ++ [Event.getJob c.job.meta.namespace'
      c.job.meta.name],
    (match job.spec.completions with
      | none => if job.status.succeeded > 0 ∧ job.status.active = 0
          then (none : Option Error)
          else some (.compareFailed ("job " ++ formatMeta job.meta
            ++ " not yet complete (succeeded: " ++ toString job.status.succeeded
            ++ ", active: " ++ toString job.status.active ++ ")"))
      | some n => if job.status.succeeded ≥ n then none
          else some (.compareFailed ("job " ++ formatMeta job.meta
            ++ " not yet complete (succeeded: " ++ toString job.status.succeeded
            ++ ", active: " ++ toString job.status.active ++ ")")))) := by
    simp only [Status]
    rw [hget]
    rcases hc : job.spec.completions with _ | n
    · by_cases h : job.status.succeeded > 0 ∧ job.status.active = 0 <;>
        simp [hc, h]
    · by_cases h : job.status.succeeded ≥ n <;> simp [hc, h]
  refine ⟨?_, ?_, ?_⟩
  · intro hc
    rw [hs, hc]
    by_cases h : job.status.succeeded > 0 ∧ job.status.active = 0 <;> simp [h]
  · intro n hc
    rw [hs, hc]
    by_cases h : job.status.succeeded ≥ n <;> simp [h]
  · intro hne
    rw [hs] at hne ⊢
    rcases hc : job.spec.completions with _ | n
    · by_cases h : job.status.succeeded > 0 ∧ job.status.active = 0
      · simp [hc, h] at hne
      · exact ⟨"job " ++ formatMeta job.meta ++ " not yet complete (succeeded: ",
          ", active: ", ")", by simp [h]⟩
    · by_cases h : job.status.succeeded ≥ n
      · simp [hc, h] at hne
      · exact ⟨"job " ++ formatMeta job.meta ++ " not yet complete (succeeded: ",
          ", active: ", ")", by simp [h]⟩

/-- Witness for C2: with no completions target, succeeded=1 and active=0,
Status succeeds. -/
theorem Status_spec_witness :
    (Status envDone { job := jobDone, clientset := true } []).2 = none := by
  exact ((Status_spec envDone { job := jobDone, clientset := true } []
    jobDone rfl).1 rfl).mpr (by decide)

/-! ## C8 / C9: construction and defaulting -/

/-- Counterexample for C8: at this concrete configuration the descriptor
arrives with kind "Foo", and `checkAndSetDefaults` rewrites it to the
well-known Job kind anyway, so a kind already present is not left
unchanged (the apiVersion "v7" is preserved, as shown by the record). -/
theorem checkAndSetDefaults_overwrites_kind :
    checkAndSetDefaults { job := some jobPreset, clientset := true } =
      .ok { job := some { jobPreset with kind := "Job" }, clientset := true }
    ∧ jobPreset.kind = "Foo"
    ∧ ({ jobPreset with kind := "Job" } : Job).kind ≠ jobPreset.kind := by
  refine ⟨by decide, rfl, by decide⟩

/-- C8 (amended): on every configuration accepted by construction with a
non-nil descriptor, `kind` is unconditionally overwritten with the
well-known Job kind, while `apiVersion` is defaulted only when unset and
an already-present apiVersion is left unchanged. -/
theorem checkAndSetDefaults_spec (cfg : JobConfig) (j : Job)
    (hcs : cfg.clientset = true) (hj : cfg.job = some j) :
    checkAndSetDefaults cfg = .ok { job := some (defaulted j), clientset := true }
    ∧ (defaulted j).kind = KindJob
    ∧ (j.apiVersion ≠ "" → (defaulted j).apiVersion = j.apiVersion)
    ∧ (j.apiVersion = "" → (defaulted j).apiVersion = BatchAPIVersion) := by
  have h : checkAndSetDefaults cfg =
      .ok { job := some (defaulted j), clientset := true } := by
    unfold checkAndSetDefaults defaulted
    rw [hj, hcs]
    by_cases hv : j.apiVersion = "" <;> simp [hv]
  refine ⟨h, ?_, fun hv => ?_, fun hv => ?_⟩
  · unfold defaulted
    by_cases hv : j.apiVersion = "" <;> simp [hv]
  · unfold defaulted
    simp [hv]
  · unfold defaulted
    simp [hv]

/-- Witness for C8 (amended): a descriptor with kind "Foo" and apiVersion
"v7" comes out with kind "Job" and apiVersion "v7". -/
theorem checkAndSetDefaults_spec_witness :
    checkAndSetDefaults { job := some jobPreset, clientset := true } =
      .ok { job := some (defaulted jobPreset), clientset := true }
    ∧ (defaulted jobPreset).apiVersion = "v7" := by
  refine ⟨(checkAndSetDefaults_spec { job := some jobPreset, clientset := true }
    jobPreset rfl rfl).1, ?_⟩
  have h := (checkAndSetDefaults_spec { job := some jobPreset, clientset := true }
    jobPreset rfl rfl).2.2.1 (by decide)
  simpa using h

/-- C9: with a present client handle and a nil Job descriptor,
construction neither succeeds nor reports any error (in particular no
BadParameter): `checkAndSetDefaults` dereferences the nil descriptor to
assign the kind, so the public constructor fails with a runtime panic. -/
theorem NewJobControl_nil_descriptor (cfg : JobConfig)
    (hcs : cfg.clientset = true) (hj : cfg.job = none) :
    NewJobControl cfg = .panics ∧ ∀ e, NewJobControl cfg ≠ .err e := by
  have h : checkAndSetDefaults cfg = .panics := by
    unfold checkAndSetDefaults
    rw [hj, hcs]
    simp
  refine ⟨?_, ?_⟩
  · unfold NewJobControl
    rw [h]
  · intro e
    unfold NewJobControl
    rw [h]
    simp

/-- Witness for C9: the concrete configuration with a client handle and
no descriptor panics instead of returning an error. -/
theorem NewJobControl_nil_descriptor_witness :
    NewJobControl { job := none, clientset := true } = .panics :=
  (NewJobControl_nil_descriptor { job := none, clientset := true } rfl rfl).1

/-! ## C4: the retry engine -/

/-- A loop entered with a nil error exits immediately. -/
theorem retryGo_none (cancelled : Nat → Bool) (fn : Nat → Option Error) :
    ∀ fuel i, retryGo cancelled fn fuel i none = ([], none) := by
  intro fuel i
  rcases fuel with _ | m
  · simp [retryGo]
  · simp [retryGo]

/-- When the probe always fails and the context is never cancelled, the
loop spends all its fuel and ends with the result of the last call. -/
theorem retryGo_all_fail (cancelled : Nat → Bool) (fn : Nat → Option Error)
    (hcan : ∀ j, cancelled j = false) (hfail : ∀ j, fn j ≠ none) :
    ∀ fuel i e,
      retryGo cancelled fn fuel i (some e) =
        (failTrace fuel i, if fuel = 0 then some e else fn (i + fuel - 1)) := by
  intro fuel
  induction fuel with
  | zero =>
    intro i e
    simp [retryGo, failTrace]
  | succ n ih =>
    intro i e
    obtain ⟨e', he'⟩ := Option.ne_none_iff_exists'.mp (hfail i)
    simp only [retryGo, hcan i, Bool.false_eq_true, if_false, failTrace]
    rw [he', ih (i + 1) e']
    rcases n with _ | m
    · simp [← he']
    · have harith : i + 1 + (m + 1) - 1 = i + (m + 1 + 1) - 1 := by omega
      simp [harith]

/-- When the probe first succeeds at relative offset `k` within the fuel
window and the context is never cancelled, the loop stops right after
that call with a nil result. -/
theorem retryGo_success (cancelled : Nat → Bool) (fn : Nat → Option Error)
    (hcan : ∀ j, cancelled j = false) :
    ∀ k fuel i e, (∀ j, i ≤ j → j < i + k → fn j ≠ none) → fn (i + k) = none →
      k < fuel →
      retryGo cancelled fn fuel i (some e) = (failTrace (k + 1) i, none) := by
  intro k
  induction k with
  | zero =>
    intro fuel i e _ hsucc hlt
    rcases fuel with _ | m
    · omega
    · rw [Nat.add_zero] at hsucc
      simp only [retryGo, hcan i, Bool.false_eq_true, if_false]
      rw [hsucc, retryGo_none]
      simp [failTrace]
  | succ k ih =>
    intro fuel i e hwin hsucc hlt
    rcases fuel with _ | m
    · omega
    · have hi : fn i ≠ none := hwin i (Nat.le_refl i) (by omega)
      obtain ⟨e', he'⟩ := Option.ne_none_iff_exists'.mp hi
      simp only [retryGo, hcan i, Bool.false_eq_true, if_false]
      rw [he', ih m (i + 1) e'
        (fun j h1 h2 => hwin j (by omega) (by omega))
        (by rw [show i + 1 + k = i + (k + 1) by omega]; exact hsucc)
        (by omega)]
      simp [failTrace]

/-- When the context is observed cancelled at the select of iteration
`i + d` (after `d` failing iterations from `i`), the loop returns the
error from the last call made, with no further call. -/
theorem retryGo_cancelled (cancelled : Nat → Bool) (fn : Nat → Option Error) :
    ∀ d fuel i e, d < fuel → cancelled (i + d) = true →
      (∀ j, i ≤ j → j < i + d → cancelled j = false) →
      (∀ j, i ≤ j → j < i + d → fn j ≠ none) →
      retryGo cancelled fn fuel i (some e) =
        (failTrace d i ++ [.ctxDone],
          if d = 0 then some e else fn (i + d - 1)) := by
  intro d
  induction d with
  | zero =>
    intro fuel i e hlt hcani _ _
    rcases fuel with _ | m
    · omega
    · rw [Nat.add_zero] at hcani
      simp [retryGo, hcani, failTrace]
  | succ d ih =>
    intro fuel i e hlt hcand hcan hfail
    rcases fuel with _ | m
    · omega
    · have hci : cancelled i = false := hcan i (Nat.le_refl i) (by omega)
      have hi : fn i ≠ none := hfail i (Nat.le_refl i) (by omega)
      obtain ⟨e', he'⟩ := Option.ne_none_iff_exists'.mp hi
      simp only [retryGo, hci, Bool.false_eq_true, if_false]
      rw [he', ih m (i + 1) e' (by omega)
        (by rw [show i + 1 + d = i + (d + 1) by omega]; exact hcand)
        (fun j h1 h2 => hcan j (by omega) (by omega))
        (fun j h1 h2 => hfail j (by omega) (by omega))]
      rcases d with _ | m'
      · simp [failTrace, ← he']
      · have harith : i + 1 + (m' + 1) - 1 = i + (m' + 1 + 1) - 1 := by omega
        simp [failTrace, harith]

/-- C4: `retry` with attempts below one succeeds without ever calling the
probe; with `n ≥ 1` attempts and no cancellation it calls the probe,
retrying after a wait while the latest result is an error and fewer than
`n` calls were made, and returns the result of the last call (the last
error verbatim when the probe never succeeds, nil as soon as a call at
index `k < n` succeeds, after exactly `k + 1` calls); when the context is
cancelled during the wait of iteration `k`, it returns the most recent
error — the result of call `k - 1` — without a further call. -/
theorem retry_spec (cancelled : Nat → Bool) (fn : Nat → Option Error)
    (times : Int) :
    (times < 1 → retry cancelled fn times = ([], none))
    ∧ (1 ≤ times → (∀ j, cancelled j = false) → (∀ j, fn j ≠ none) →
        retry cancelled fn times =
          (.call 0 :: failTrace (times - 1).toNat 1, fn (times - 1).toNat))
    ∧ (1 ≤ times → (∀ j, cancelled j = false) →
        ∀ k : Nat, (∀ j, j < k → fn j ≠ none) → fn k = none → (k : Int) < times →
        retry cancelled fn times = (.call 0 :: failTrace k 1, none))
    ∧ (1 ≤ times → ∀ k : Nat, 1 ≤ k → (k : Int) < times →
        (∀ j, j < k → cancelled j = false) → (∀ j, j < k → fn j ≠ none) →
        cancelled k = true →
        retry cancelled fn times =
          (.call 0 :: (failTrace (k - 1) 1 ++ [.ctxDone]), fn (k - 1))) := by
  refine ⟨?_, ?_, ?_, ?_⟩
  · intro h
    simp [retry, h]
  · intro h1 hcan hfail
    have hnl : ¬ times < 1 := by omega
    obtain ⟨e0, he0⟩ := Option.ne_none_iff_exists'.mp (hfail 0)
    simp only [retry, hnl, if_false]
    rw [he0, retryGo_all_fail cancelled fn hcan hfail _ 1 e0]
    rcases hf : (times - 1).toNat with _ | m
    · simp [← he0, hf]
    · have harith : 1 + (m + 1) - 1 = m + 1 := by omega
      simp [harith, hf]
  · intro h1 hcan k hwin hk hkt
    have hnl : ¬ times < 1 := by omega
    rcases k with _ | m
    · simp only [retry, hnl, if_false]
      rw [hk, retryGo_none]
      simp [failTrace]
    · obtain ⟨e0, he0⟩ := Option.ne_none_iff_exists'.mp (hwin 0 (by omega))
      simp only [retry, hnl, if_false]
      rw [he0, retryGo_success cancelled fn hcan m _ 1 e0
        (fun j hj1 hj2 => hwin j (by omega))
        (by rw [show 1 + m = m + 1 by omega]; exact hk)
        (by omega)]
  · intro h1 k hk1 hkt hcan hfail hck
    have hnl : ¬ times < 1 := by omega
    obtain ⟨e0, he0⟩ := Option.ne_none_iff_exists'.mp (hfail 0 (by omega))
    simp only [retry, hnl, if_false]
    rw [he0, retryGo_cancelled cancelled fn (k - 1) _ 1 e0
      (by omega)
      (by rw [show 1 + (k - 1) = k by omega]; exact hck)
      (fun j hj1 hj2 => hcan j (by omega))
      (fun j hj1 hj2 => hfail j (by omega))]
    rcases hk : k - 1 with _ | m
    · have : k = 1 := by omega
      subst this
      simp [← he0]
    · have harith : 1 + (m + 1) - 1 = m + 1 := by omega
      simp [harith]

/-- Witness for C4: a probe that fails on its first two calls while the
probe context stays live makes `retry` with two attempts return the
second error after two calls and one wait; and a cancellation at the
first wait returns the first error after a single call. -/
theorem retry_spec_witness :
    retry (fun _ => false) (fun i => some (.other (toString i))) 2 =
      ([.call 0, .wait, .call 1], some (.other "1"))
    ∧ retry (fun i => decide (1 ≤ i)) (fun i => some (.other (toString i))) 3 =
      ([.call 0, .ctxDone], some (.other "0")) := by
  constructor
  · have h := (retry_spec (fun _ => false)
      (fun i => some (.other (toString i))) 2).2.1 (by decide)
      (fun j => rfl) (fun j => by simp)
    simpa [failTrace] using h
  · have h := (retry_spec (fun i => decide (1 ≤ i))
      (fun i => some (.other (toString i))) 3).2.2.2 (by decide) 1 (by decide)
      (by decide) (fun j hj => by interval_cases j <;> rfl)
      (fun j hj => by simp) (by decide)
    simpa [failTrace] using h

/-! ## C7 / C10: the pod collector -/

/-- Looking up after a Go map assignment: the assigned key reads back the
new value, every other key is unaffected. -/
theorem lookupKV_mapInsert {α : Type} (m : List (String × α)) (k k' : String)
    (v : α) :
    lookupKV (mapInsert m k v) k' = if k' = k then some v else lookupKV m k' := by
  induction m with
  | nil =>
    by_cases h : k' = k
    · simp [mapInsert, lookupKV, h]
    · simp [mapInsert, lookupKV, h, Ne.symm h]
  | cons kv rest ih =>
    by_cases hk : kv.1 = k
    · by_cases h : k' = k
      · simp [mapInsert, lookupKV, hk, h]
      · simp [mapInsert, lookupKV, hk, h, Ne.symm h]
    · by_cases hkv : kv.1 = k'
      · have h : ¬ k' = k := fun hh => hk (hkv.trans hh)
        simp [mapInsert, lookupKV, hk, hkv, h]
      · simp [mapInsert, lookupKV, hk, hkv, ih]

/-- The collection loop emits only log events. -/
theorem collectLoop_remote (parse : String → Except Error SerializedReference)
    (fn : ObjectReference → Bool) :
    ∀ pods acc, remoteTrace (collectLoop parse fn pods acc).1 = [] := by
  intro pods
  induction pods with
  | nil => intro acc; simp [collectLoop, remoteTrace]
  | cons pod rest ih =>
    intro acc
    rcases ha : lookupKV pod.meta.annotations AnnotationCreatedBy with _ | createdBy
    · simp [collectLoop, ha, ih]
    · rcases hp : parse createdBy with e | ref
      · rcases hcl : collectLoop parse fn rest acc with ⟨evts, r⟩
        have ih' := ih acc
        rw [hcl] at ih'
        simp [collectLoop, ha, hp, hcl, remoteTrace, Event.isLog] at ih' ⊢
        exact ih'
      · cases hf : fn ref.reference
        · simp [collectLoop, ha, hp, hf, ih]
        · rcases hcl : collectLoop parse fn rest
            (mapInsert acc pod.spec.nodeName pod) with ⟨evts, r⟩
          have ih' := ih (mapInsert acc pod.spec.nodeName pod)
          rw [hcl] at ih'
          simp [collectLoop, ha, hp, hf, hcl, remoteTrace, Event.isLog] at ih' ⊢
          exact ih'

/-- The mapping built by the collection loop is the fold of Go map
assignments over exactly the qualifying pods, in listing order. -/
theorem collectLoop_snd (parse : String → Except Error SerializedReference)
    (fn : ObjectReference → Bool) :
    ∀ pods acc, (collectLoop parse fn pods acc).2 =
      (pods.filter (qualifies parse fn)).foldl
        (fun a p => mapInsert a p.spec.nodeName p) acc := by
  intro pods
  induction pods with
  | nil => intro acc; simp [collectLoop]
  | cons pod rest ih =>
    intro acc
    rcases ha : lookupKV pod.meta.annotations AnnotationCreatedBy with _ | createdBy
    · simp [collectLoop, qualifies, List.filter_cons, ha, ih]
    · rcases hp : parse createdBy with e | ref
      · rcases hcl : collectLoop parse fn rest acc with ⟨evts, r⟩
        have ih' := ih acc
        rw [hcl] at ih'
        simp [collectLoop, qualifies, List.filter_cons, ha, hp, hcl, ih']
      · cases hf : fn ref.reference
        · simp [collectLoop, qualifies, List.filter_cons, ha, hp, hf, ih]
        · rcases hcl : collectLoop parse fn rest
            (mapInsert acc pod.spec.nodeName pod) with ⟨evts, r⟩
          have ih' := ih (mapInsert acc pod.spec.nodeName pod)
          rw [hcl] at ih'
          simp [collectLoop, qualifies, List.filter_cons, ha, hp, hf, hcl, ih']

/-- Looking up a node in the folded mapping finds the last pod of the
list scheduled on that node. -/
theorem lookupKV_foldl (ps : List Pod) :
    ∀ (acc : List (String × Pod)) (k : String),
      lookupKV (ps.foldl (fun a p => mapInsert a p.spec.nodeName p) acc) k =
        (match ps.reverse.find? (fun p => p.spec.nodeName == k) with
          | some p => some p
          | none => lookupKV acc k) := by
  induction ps with
  | nil => intro acc k; simp
  | cons p rest ih =>
    intro acc k
    simp only [List.foldl_cons, List.reverse_cons, List.find?_append]
    rw [ih, lookupKV_mapInsert]
    rcases hf : rest.reverse.find? (fun q => q.spec.nodeName == k) with _ | q
    · rw [hf]
      cases hp : (p.spec.nodeName == k)
      · have hne : ¬ k = p.spec.nodeName := by
          intro hh
          rw [hh] at hp
          simp at hp
        simp [List.find?, hp, hne, Option.or]
      · have heq : k = p.spec.nodeName := by
          have := (beq_iff_eq (a := p.spec.nodeName) (b := k)).mp hp
          exact this.symm
        simp [List.find?, hp, heq, Option.or]
    · rw [hf]
      simp [Option.or]

/-- Counterexample for C7: both pods of `envTwoPods` qualify (annotation
present, deserializable, owner matches), yet the returned mapping holds
only the later pod — with two qualifying pods on one node the mapping
does not contain exactly the qualifying pods, because the node-name key
overwrites. -/
theorem CollectPods_same_node_counterexample :
    qualifies envTwoPods.parseRef ownerU1 podA = true
    ∧ qualifies envTwoPods.parseRef ownerU1 podB = true
    ∧ (CollectPods envTwoPods "ns" none ownerU1 []).2 = .ok [("node1", podB)]
    ∧ ([("node1", podB)].all fun kv => kv.2 != podA) = true := by
  refine ⟨rfl, rfl, rfl, rfl⟩

/-- The collector's returned mapping, when listing succeeds: the fold of
node-keyed Go map assignments over the qualifying label-matched pods. -/
theorem CollectPods_result (env : Env) (ns : String)
    (mlabels : Option (List (String × String))) (fn : ObjectReference → Bool)
    (tr : List Event) (items : List Pod)
    (hlist : env.podsInNamespace (remoteTrace tr) ns = .ok items) :
    (CollectPods env ns mlabels fn tr).2 =
      .ok (((items.filter (selectorMatches (buildSet mlabels))).filter
          (qualifies env.parseRef fn)).foldl
        (fun a p => mapInsert a p.spec.nodeName p) []) := by
  rcases hcl : collectLoop env.parseRef fn
      (items.filter (selectorMatches (buildSet mlabels))) [] with ⟨evts, acc⟩
  have hsnd : acc =
      ((items.filter (selectorMatches (buildSet mlabels))).filter
        (qualifies env.parseRef fn)).foldl
        (fun a p => mapInsert a p.spec.nodeName p) [] := by
    have h := collectLoop_snd env.parseRef fn
      (items.filter (selectorMatches (buildSet mlabels))) []
    rw [hcl] at h
    simpa using h
  have hres : (CollectPods env ns mlabels fn tr).2 = .ok acc := by
    simp [CollectPods, hlist, hcl]
  rw [hres, hsnd]

/-- C7 (amended): when listing succeeds, the collector returns without
error the mapping obtained by folding Go map assignments keyed by node
name over exactly the label-matching pods that carry the provenance
annotation, deserialize, and satisfy the owner predicate (pods without
the annotation or with an undeserializable one are skipped, without
aborting the rest); per node, the mapping holds the last such pod
scheduled on it — an earlier qualifying pod on the same node is
overwritten. -/
theorem CollectPods_spec (env : Env) (ns : String)
    (mlabels : Option (List (String × String))) (fn : ObjectReference → Bool)
    (tr : List Event) (items : List Pod)
    (hlist : env.podsInNamespace (remoteTrace tr) ns = .ok items) :
    (CollectPods env ns mlabels fn tr).2 =
      .ok (((items.filter (selectorMatches (buildSet mlabels))).filter
          (qualifies env.parseRef fn)).foldl
        (fun a p => mapInsert a p.spec.nodeName p) [])
    ∧ ∀ m, (CollectPods env ns mlabels fn tr).2 = .ok m →
      ∀ node, lookupKV m node =
        ((items.filter (selectorMatches (buildSet mlabels))).filter
          (qualifies env.parseRef fn)).reverse.find?
            (fun p => p.spec.nodeName == node) := by
  have h1 := CollectPods_result env ns mlabels fn tr items hlist
  refine ⟨h1, ?_⟩
  intro m hm node
  rw [h1] at hm
  cases hm
  rw [lookupKV_foldl]
  rcases hfind : ((items.filter (selectorMatches (buildSet mlabels))).filter
      (qualifies env.parseRef fn)).reverse.find?
      (fun p => p.spec.nodeName == node) with _ | q
  · rw [hfind]
    rfl
  · rw [hfind]

/-- Witness for C7 (amended): on the two-pod environment the
characterization applies and evaluates to the mapping holding `podB`. -/
theorem CollectPods_spec_witness :
    (CollectPods envTwoPods "ns" none ownerU1 []).2 = .ok [("node1", podB)] := by
  have h := (CollectPods_spec envTwoPods "ns" none ownerU1 [] [podA, podB]
    rfl).1
  rw [h]
  rfl

/-- The empty selector matches every pod, so filtering by it keeps the
whole listing. -/
theorem filter_selectorMatches_nil (items : List Pod) :
    items.filter (selectorMatches []) = items := by
  induction items with
  | nil => rfl
  | cons p rest ih => simp [List.filter_cons, selectorMatches, ih]

/-- C10: for a job whose spec has no selector, `collectPods` passes the
nil label mapping, `CollectPods` builds the empty label selector (which
matches every pod), and the candidate set is the namespace's entire pod
list, restricted only by the provenance annotation and the owner
predicate. -/
theorem collectPods_nil_selector (env : Env) (job : Job) (tr : List Event)
    (items : List Pod) (hsel : job.spec.selector = none)
    (hlist : env.podsInNamespace (remoteTrace tr) job.meta.namespace'
      = .ok items) :
    jobSelectorLabels job = none
    ∧ buildSet (jobSelectorLabels job) = []
    ∧ (∀ p, selectorMatches (buildSet (jobSelectorLabels job)) p = true)
    ∧ remoteTrace (collectPods env job tr).1 =
        remoteTrace tr ++ [Event.listPods job.meta.namespace' []]
    ∧ (collectPods env job tr).2 =
        .ok ((items.filter (qualifies env.parseRef (ownerPred job))).foldl
          (fun a p => mapInsert a p.spec.nodeName p) []) := by
  have hlab : jobSelectorLabels job = none := by
    simp [jobSelectorLabels, hsel]
  have hset : buildSet (jobSelectorLabels job) = [] := by
    rw [hlab]; rfl
  refine ⟨hlab, hset, ?_, ?_, ?_⟩
  · intro p
    rw [hset]
    simp [selectorMatches]
  · rcases hcl : collectLoop env.parseRef (ownerPred job) items [] with ⟨evts, acc⟩
    have hrem : remoteTrace evts = [] := by
      have h := collectLoop_remote env.parseRef (ownerPred job) items []
      rw [hcl] at h
      simpa using h
    simp only [collectPods, CollectPods, hlab, hlist, buildSet,
      filter_selectorMatches_nil, hcl]
    simp only [remoteTrace, List.filter_append] at hrem ⊢
    simp [hrem, Event.isLog]
    intro a ha
    have h2 : a.isLog = true := by
      by_contra hcon
      have hmem : a ∈ List.filter (fun e => !e.isLog) evts :=
        List.mem_filter.mpr ⟨ha, by simp [hcon]⟩
      rw [hrem] at hmem
      simp at hmem
    simpa [Event.isLog] using h2
  · have h := CollectPods_result env job.meta.namespace' (jobSelectorLabels job)
      (ownerPred job) tr items hlist
    rw [hset, filter_selectorMatches_nil] at h
    rcases hcp : CollectPods env job.meta.namespace' (jobSelectorLabels job)
        (ownerPred job) tr with ⟨tr2, r⟩
    rw [hcp] at h
    have hr : r = .ok ((items.filter (qualifies env.parseRef (ownerPred job))).foldl
        (fun a p => mapInsert a p.spec.nodeName p) []) := by
      simpa using h
    simp only [collectPods, hcp, hr]

/-- Witness for C10: the selector-free job over the two-pod environment
lists with the empty selector and collects both pods' node entry. -/
theorem collectPods_nil_selector_witness :
    (collectPods envTwoPods jobNoSel []).2 = .ok [("node1", podB)]
    ∧ remoteTrace (collectPods envTwoPods jobNoSel []).1 =
      [Event.listPods "ns" []] := by
  have h := collectPods_nil_selector envTwoPods jobNoSel [] [podA, podB]
    rfl rfl
  refine ⟨?_, ?_⟩
  · rw [h.2.2.2.2]
    rfl
  · rw [h.2.2.2.1]
    rfl

/-! ## C5: the cascade flag only changes logging -/

/-- Remote projection distributes over trace concatenation. -/
theorem remoteTrace_append (tr₁ tr₂ : List Event) :
    remoteTrace (tr₁ ++ tr₂) = remoteTrace tr₁ ++ remoteTrace tr₂ := by
  simp [remoteTrace]

/-- A log line is invisible to the remote system. -/
theorem remoteTrace_log (tr : List Event) (m : String) :
    remoteTrace (tr ++ [Event.log m]) = remoteTrace tr := by
  simp [remoteTrace, Event.isLog]

/-- Remote projection of singleton traces. -/
theorem remoteTrace_single_log (m : String) :
    remoteTrace [Event.log m] = [] := rfl

/-- Remote projection keeps a fetch call. -/
theorem remoteTrace_single_getJob (ns n : String) :
    remoteTrace [Event.getJob ns n] = [Event.getJob ns n] := rfl

/-- Remote projection keeps a job-deletion call. -/
theorem remoteTrace_single_deleteJob (ns n : String) :
    remoteTrace [Event.deleteJob ns n] = [Event.deleteJob ns n] := rfl

/-- Remote projection keeps a creation call. -/
theorem remoteTrace_single_createJob (ns : String) (j : Job) :
    remoteTrace [Event.createJob ns j] = [Event.createJob ns j] := rfl

/-- Remote projection keeps a pod-listing call. -/
theorem remoteTrace_single_listPods (ns : String) (sel : List (String × String)) :
    remoteTrace [Event.listPods ns sel] = [Event.listPods ns sel] := rfl

/-- Remote projection keeps a pod-deletion call. -/
theorem remoteTrace_single_deletePod (ns n : String) :
    remoteTrace [Event.deletePod ns n] = [Event.deletePod ns n] := rfl

/-- The pod-deletion loop's result and remote calls depend only on the
remote projection of the incoming trace, not on its log lines. -/
theorem podDeleteLoop_congr (env : Env) (ns : String) (msg : Pod → String) :
    ∀ pods tr₁ tr₂, remoteTrace tr₁ = remoteTrace tr₂ →
      (podDeleteLoop env ns msg pods tr₁).2 = (podDeleteLoop env ns msg pods tr₂).2
      ∧ remoteTrace (podDeleteLoop env ns msg pods tr₁).1 =
        remoteTrace (podDeleteLoop env ns msg pods tr₂).1 := by
  intro pods
  induction pods with
  | nil =>
    intro tr₁ tr₂ h
    exact ⟨rfl, h⟩
  | cons kv rest ih =>
    intro tr₁ tr₂ h
    obtain ⟨k, pod⟩ := kv
    have hlog : remoteTrace (tr₁ ++ [Event.log (msg pod)]) =
        remoteTrace (tr₂ ++ [Event.log (msg pod)]) := by
      rw [remoteTrace_log, remoteTrace_log, h]
    have hnext : remoteTrace ((tr₁ ++ [Event.log (msg pod)])
          ++ [Event.deletePod ns pod.meta.name]) =
        remoteTrace ((tr₂ ++ [Event.log (msg pod)])
          ++ [Event.deletePod ns pod.meta.name]) := by
      simp only [remoteTrace_append, h]
    have hcall : env.deletePod (remoteTrace (tr₁ ++ [Event.log (msg pod)]))
          ns pod.meta.name =
        env.deletePod (remoteTrace (tr₂ ++ [Event.log (msg pod)]))
          ns pod.meta.name := by
      rw [hlog]
    simp only [podDeleteLoop]
    rcases hr : env.deletePod (remoteTrace (tr₂ ++ [Event.log (msg pod)]))
        ns pod.meta.name with _ | e
    · rw [hcall, hr]
      exact ih _ _ hnext
    · rw [hcall, hr]
      exact ⟨rfl, hnext⟩

/-- C5: in both versions of `Delete`, the returned result and the remote
calls issued are identical for `cascade = true` and `cascade = false`;
the flag only adds a log line. -/
theorem Delete_cascade_irrelevant (env : Env) (c : JobControl) (tr : List Event) :
    ((Delete env c true tr).2 = (Delete env c false tr).2
      ∧ remoteTrace (Delete env c true tr).1 =
        remoteTrace (Delete env c false tr).1)
    ∧ ((DeleteP0 env c true tr).2 = (DeleteP0 env c false tr).2
      ∧ remoteTrace (DeleteP0 env c true tr).1 =
        remoteTrace (DeleteP0 env c false tr).1) := by
  constructor
  · simp only [Delete]
    rcases hg : env.getJob
        (remoteTrace (tr ++ [Event.log ("delete " ++ formatMeta c.job.meta)]))
        c.job.meta.namespace' c.job.meta.name with e | cur
    · exact ⟨rfl, rfl⟩
    · dsimp only
      rcases hcp : collectPods env cur
          ((tr ++ [Event.log ("delete " ++ formatMeta c.job.meta)])
            ++ [Event.getJob c.job.meta.namespace' c.job.meta.name]) with ⟨trc, pr⟩
      rcases pr with e | currentPods
      · exact ⟨rfl, rfl⟩
      · dsimp only
        rcases hd : env.deleteJob
            (remoteTrace (trc ++ [Event.log "deleting current job"]))
            c.job.meta.namespace' c.job.meta.name with _ | e
        · rcases hw : waitForObjectDeletion env c.job.meta.namespace'
              c.job.meta.name DefaultWaitAttempts
              ((trc ++ [Event.log "deleting current job"])
                ++ [Event.deleteJob c.job.meta.namespace' c.job.meta.name])
              with ⟨trw, w⟩
          dsimp only
          rcases w with _ | e
          · have hcongr := podDeleteLoop_congr env c.job.meta.namespace'
              (fun p => "deleting pod " ++ p.meta.name) currentPods
              trw (trw ++ [Event.log "cascade not set, returning"])
              (remoteTrace_log trw _).symm
            simpa [deletePods] using hcongr
          · exact ⟨rfl, rfl⟩
        · exact ⟨rfl, rfl⟩
  · simp only [DeleteP0]
    rcases hg : env.getJob
        (remoteTrace (tr ++ [Event.log ("delete " ++ formatMeta c.job.meta)]))
        c.job.meta.namespace' c.job.meta.name with e | cur
    · exact ⟨rfl, rfl⟩
    · dsimp only
      rcases hcp : collectPods env cur
          ((tr ++ [Event.log ("delete " ++ formatMeta c.job.meta)])
            ++ [Event.getJob c.job.meta.namespace' c.job.meta.name]) with ⟨trc, pr⟩
      rcases pr with e | currentPods
      · exact ⟨rfl, rfl⟩
      · dsimp only
        rcases hd : env.deleteJob
            (remoteTrace (trc ++ [Event.log "deleting current job"]))
            c.job.meta.namespace' c.job.meta.name with _ | e
        · have hcongr := podDeleteLoop_congr env c.job.meta.namespace'
            (fun p => "deleting pod " ++ p.meta.name) currentPods
            ((((trc ++ [Event.log "deleting current job"])
              ++ [Event.deleteJob c.job.meta.namespace' c.job.meta.name]))
              ++ [Event.log "deleting pods"])
            (((((trc ++ [Event.log "deleting current job"])
              ++ [Event.deleteJob c.job.meta.namespace' c.job.meta.name]))
              ++ [Event.log "cascade not set, returning"])
              ++ [Event.log "deleting pods"])
            (by simp only [remoteTrace_log])
          simpa using hcongr
        · exact ⟨rfl, rfl⟩

/-! ## C6 / C1: computation lemmas for Upsert -/

/-- Identity-stripping clears exactly the three server-assigned fields. -/
theorem stripJob_meta (j : Job) :
    (stripJob j).meta =
      { j.meta with uid := "", selfLink := "", resourceVersion := "" } := by
  rcases hsel : j.spec.selector with _ | sel
  · simp [stripJob, hsel]
  · simp [stripJob, hsel]

/-- Defaulting kind and apiVersion leaves the object metadata unchanged. -/
theorem defaulted_meta (j : Job) : (defaulted j).meta = j.meta := by
  unfold defaulted
  by_cases hv : j.apiVersion = "" <;> simp [hv]

/-- Defaulting leaves the spec unchanged. -/
theorem defaulted_spec (j : Job) : (defaulted j).spec = j.spec := by
  unfold defaulted
  by_cases hv : j.apiVersion = "" <;> simp [hv]

/-- Running `checkAndSetDefaults` on a valid configuration. -/
theorem checkAndSetDefaults_eq (cfg : JobConfig) (j : Job)
    (hcs : cfg.clientset = true) (hj : cfg.job = some j) :
    checkAndSetDefaults cfg =
      .ok { job := some (defaulted j), clientset := true } := by
  unfold checkAndSetDefaults defaulted
  rw [hj, hcs]
  by_cases hv : j.apiVersion = "" <;> simp [hv]

/-- Running `NewJobControl` on a valid configuration binds the defaulted job. -/
theorem NewJobControl_eq (j : Job) :
    NewJobControl { job := some j, clientset := true } =
      .ok { job := defaulted j, clientset := true } := by
  unfold NewJobControl
  rw [checkAndSetDefaults_eq _ j rfl rfl]

/-- A pod-deletion loop against an environment whose pod deletions all
succeed: every collected pod is deleted, in order, with a nil result. -/
theorem podDeleteLoop_success (env : Env) (ns : String) (msg : Pod → String)
    (hdelpod : ∀ rtr p, env.deletePod rtr ns p = none) :
    ∀ pods tr, podDeleteLoop env ns msg pods tr =
      (tr ++ podDeleteTrace ns msg pods, none) := by
  intro pods
  induction pods with
  | nil => intro tr; simp [podDeleteLoop, podDeleteTrace]
  | cons kv rest ih =>
    intro tr
    obtain ⟨k, pod⟩ := kv
    simp [podDeleteLoop, podDeleteTrace, hdelpod, ih]

/-- The remote projection of a successful pod-deletion trace is one
delete call per pod, in order. -/
theorem remoteTrace_podDeleteTrace (ns : String) (msg : Pod → String) :
    ∀ pods, remoteTrace (podDeleteTrace ns msg pods) =
      pods.map (fun kv => Event.deletePod ns kv.2.meta.name) := by
  intro pods
  induction pods with
  | nil => simp [podDeleteTrace, remoteTrace]
  | cons kv rest ih =>
    obtain ⟨k, pod⟩ := kv
    simp [podDeleteTrace, remoteTrace, Event.isLog] at ih ⊢
    exact ih

/-- Running `collectPods` against an environment whose listing uniformly returns
`podlist`: one List call with the job's selector labels, then the pure
collection loop. -/
theorem collectPods_uniform (env : Env) (job : Job) (podlist : List Pod)
    (hpods : ∀ rtr, env.podsInNamespace rtr job.meta.namespace' = .ok podlist) :
    ∀ tr, collectPods env job tr =
      ((tr ++ [Event.listPods job.meta.namespace'
          (buildSet (jobSelectorLabels job))])
        ++ (collectLoop env.parseRef (ownerPred job)
            (podlist.filter (selectorMatches (buildSet (jobSelectorLabels job))))
            []).1,
       .ok (collectedPods env job podlist)) := by
  intro tr
  rcases hcl : collectLoop env.parseRef (ownerPred job)
      (podlist.filter (selectorMatches (buildSet (jobSelectorLabels job)))) []
      with ⟨evts, acc⟩
  simp [collectPods, CollectPods, hpods, hcl, collectedPods]

/-- The creation tail against an environment whose create uniformly
succeeds: one create call of the stripped object, nil result. -/
theorem upsertCreate_success (env : Env) (c : JobControl) (jres : Job)
    (hcreate : ∀ rtr, env.createJob rtr c.job.meta.namespace' (stripJob c.job)
      = .ok jres) :
    ∀ fuel tr, upsertCreate env c fuel tr =
      ((tr ++ [Event.log "creating new job"])
        ++ [Event.createJob c.job.meta.namespace' (stripJob c.job)], none) := by
  intro fuel tr
  cases fuel with
  | zero => simp [upsertCreate, withExponentialBackoff, hcreate]
  | succ n => simp [upsertCreate, withExponentialBackoff, hcreate]

/-- C6: when the fetch of the current object converts to NotFound, both
Upsert versions issue no delete call and no pod listing — the only
remote calls are the fetch and the creation of the desired object with
UID, self link and resource version cleared; when the fetch error
converts to anything but NotFound, both versions return it after the
fetch, issuing no further remote call. -/
theorem Upsert_notfound_spec (env : Env) (c : JobControl) (tr : List Event)
    (e : Error) (jres : Job)
    (hget : ∀ rtr, env.getJob rtr c.job.meta.namespace' c.job.meta.name
      = .error e) :
    (IsNotFound (some (convertCore e "")) = true →
      (∀ rtr, env.createJob rtr c.job.meta.namespace' (stripJob c.job)
        = .ok jres) →
      (Upsert env c tr).2 = none
      ∧ remoteTrace (Upsert env c tr).1 = remoteTrace tr
          ++ [Event.getJob c.job.meta.namespace' c.job.meta.name,
              Event.createJob c.job.meta.namespace' (stripJob c.job)]
      ∧ (UpsertP0 env c tr).2 = none
      ∧ remoteTrace (UpsertP0 env c tr).1 = remoteTrace tr
          ++ [Event.getJob c.job.meta.namespace' c.job.meta.name,
              Event.createJob c.job.meta.namespace' (stripJob c.job)]
      ∧ (stripJob c.job).meta.uid = ""
      ∧ (stripJob c.job).meta.selfLink = ""
      ∧ (stripJob c.job).meta.resourceVersion = "")
    ∧ (IsNotFound (some (convertCore e "")) = false →
      (Upsert env c tr).2 = some (convertCore e "")
      ∧ remoteTrace (Upsert env c tr).1 = remoteTrace tr
          ++ [Event.getJob c.job.meta.namespace' c.job.meta.name]
      ∧ (UpsertP0 env c tr).2 = some (convertCore e "")
      ∧ remoteTrace (UpsertP0 env c tr).1 = remoteTrace tr
          ++ [Event.getJob c.job.meta.namespace' c.job.meta.name]) := by
  constructor
  · intro hnf hcreate
    have hU : Upsert env c tr =
        ((((tr ++ [Event.log ("upsert " ++ formatMeta c.job.meta)])
          ++ [Event.getJob c.job.meta.namespace' c.job.meta.name])
          ++ [Event.log "creating new job"])
          ++ [Event.createJob c.job.meta.namespace' (stripJob c.job)], none) := by
      simp only [Upsert, hget, upsertFetch, hnf, if_true]
      rw [upsertCreate_success env c jres hcreate]
    have hP : UpsertP0 env c tr =
        (((((tr ++ [Event.log ("upsert " ++ formatMeta c.job.meta)])
          ++ [Event.getJob c.job.meta.namespace' c.job.meta.name])
          ++ [Event.log "creating new job"])
          ++ [Event.createJob c.job.meta.namespace' (stripJob c.job)])
          ++ [Event.log "job created successfully"], none) := by
      simp only [UpsertP0, hget, upsertFetch, hnf, if_true]
      simp [hcreate]
    refine ⟨by rw [hU], ?_, by rw [hP], ?_, ?_, ?_, ?_⟩
    · rw [hU]
      simp [remoteTrace, Event.isLog]
    · rw [hP]
      simp [remoteTrace, Event.isLog]
    · rw [stripJob_meta]
    · rw [stripJob_meta]
    · rw [stripJob_meta]
  · intro hnnf
    have hU : Upsert env c tr =
        ((tr ++ [Event.log ("upsert " ++ formatMeta c.job.meta)])
          ++ [Event.getJob c.job.meta.namespace' c.job.meta.name],
         some (convertCore e "")) := by
      simp only [Upsert, hget, upsertFetch, hnnf, if_false, Bool.false_eq_true]
    have hP : UpsertP0 env c tr =
        ((tr ++ [Event.log ("upsert " ++ formatMeta c.job.meta)])
          ++ [Event.getJob c.job.meta.namespace' c.job.meta.name],
         some (convertCore e "")) := by
      simp only [UpsertP0, hget, upsertFetch, hnnf, if_false, Bool.false_eq_true]
    refine ⟨by rw [hU], ?_, by rw [hP], ?_⟩
    · rw [hU]
      simp [remoteTrace, Event.isLog]
    · rw [hP]
      simp [remoteTrace, Event.isLog]

/-- Witness for C6: upserting `jobDesired` into `envAbsent` issues just
the fetch and the create of the stripped object and succeeds. -/
theorem Upsert_notfound_spec_witness :
    (Upsert envAbsent { job := jobDesired, clientset := true } []).2 = none
    ∧ remoteTrace (Upsert envAbsent { job := jobDesired, clientset := true } []).1
      = [Event.getJob "ns" "j", Event.createJob "ns" (stripJob jobDesired)] := by
  have h := (Upsert_notfound_spec envAbsent
    { job := jobDesired, clientset := true } [] (.notFound "no such job")
    (stripJob jobDesired) (fun _ => rfl)).1 rfl (fun _ => rfl)
  exact ⟨h.1, h.2.1⟩

/-! ## C1: order of remote calls during a replace -/

/-- Counterexample for C1: on the concrete replace run (`envReplace`,
desired object `jobDesired`, existing object `jobOld` owning `podOld`),
the src/job.go `Upsert` succeeds with the remote calls fetch, fetch,
list, delete-job, fetch (deletion poll), delete-pod, create — the old
job's pod is deleted *before* the create call, because `Upsert`
delegates to `Delete`, which removes the collected pods itself; the
claim's "pod deletions come after the create call" fails here. -/
theorem Upsert_pods_deleted_before_create :
    (Upsert envReplace { job := jobDesired, clientset := true } []).2 = none
    ∧ remoteTrace (Upsert envReplace { job := jobDesired, clientset := true } []).1
      = [Event.getJob "ns" "j", Event.getJob "ns" "j", Event.listPods "ns" [],
         Event.deleteJob "ns" "j", Event.getJob "ns" "j",
         Event.deletePod "ns" "p0", Event.createJob "ns" (stripJob jobDesired)]
    ∧ ((remoteTrace
          (Upsert envReplace { job := jobDesired, clientset := true } []).1).takeWhile
        (fun e => match e with | Event.createJob _ _ => false | _ => true)).any
        (fun e => match e with | Event.deletePod _ _ => true | _ => false)
      = true := by
  refine ⟨rfl, rfl, rfl⟩

/-- The deletion-propagation wait returns success after one poll once
the delete call is already in the remote trace. -/
theorem waitForObjectDeletion_found (env : Env) (ns name : String) (eNF : Error)
    (cj : Job)
    (hget2 : ∀ rtr, env.getJob rtr ns name =
      if Event.deleteJob ns name ∈ rtr then .error eNF else .ok cj)
    (hnf : IsNotFound (some (convertCore eNF "")) = true) :
    ∀ tr2, Event.deleteJob ns name ∈ remoteTrace tr2 →
      waitForObjectDeletion env ns name DefaultWaitAttempts tr2 =
        (tr2 ++ [Event.getJob ns name], none) := by
  intro tr2 hmem
  have h10 : DefaultWaitAttempts = 9 + 1 := rfl
  rw [h10]
  simp only [waitForObjectDeletion, hget2]
  simp [hmem, hnf]

/-- Running `Delete` (src/job.go) against the uniform replace environment: it
fetches, lists the owned pods, deletes the job, sees the deletion
propagate on the first poll, and deletes every collected pod; the remote
calls are exactly fetch, list, delete-job, fetch, then one delete per
collected pod. -/
theorem Delete_uniform_success (env : Env) (c' : JobControl) (tr' : List Event)
    (cj : Job) (podlist : List Pod) (eNF : Error)
    (hcns : c'.job.meta.namespace' = cj.meta.namespace')
    (hcname : c'.job.meta.name = cj.meta.name)
    (hget2 : ∀ rtr, env.getJob rtr cj.meta.namespace' cj.meta.name =
      if Event.deleteJob cj.meta.namespace' cj.meta.name ∈ rtr then .error eNF
      else .ok cj)
    (hnf : IsNotFound (some (convertCore eNF "")) = true)
    (htr : Event.deleteJob cj.meta.namespace' cj.meta.name ∉ remoteTrace tr')
    (hpods : ∀ rtr, env.podsInNamespace rtr cj.meta.namespace' = .ok podlist)
    (hdel : ∀ rtr, env.deleteJob rtr cj.meta.namespace' cj.meta.name = none)
    (hdelpod : ∀ rtr p, env.deletePod rtr cj.meta.namespace' p = none) :
    (Delete env c' true tr').2 = none
    ∧ remoteTrace (Delete env c' true tr').1 = remoteTrace tr'
        ++ [Event.getJob cj.meta.namespace' cj.meta.name,
            Event.listPods cj.meta.namespace' (buildSet (jobSelectorLabels cj)),
            Event.deleteJob cj.meta.namespace' cj.meta.name,
            Event.getJob cj.meta.namespace' cj.meta.name]
        ++ (collectedPods env cj podlist).map
            (fun kv => Event.deletePod cj.meta.namespace' kv.2.meta.name) := by
  have hget0 : env.getJob
      (remoteTrace (tr' ++ [Event.log ("delete " ++ formatMeta c'.job.meta)]))
      cj.meta.namespace' cj.meta.name = .ok cj := by
    rw [hget2, remoteTrace_log]
    exact if_neg htr
  rcases hcl : collectLoop env.parseRef (ownerPred cj)
      (podlist.filter (selectorMatches (buildSet (jobSelectorLabels cj)))) []
      with ⟨evts, acc⟩
  have hclrem : remoteTrace evts = [] := by
    have h := collectLoop_remote env.parseRef (ownerPred cj)
      (podlist.filter (selectorMatches (buildSet (jobSelectorLabels cj)))) []
    rw [hcl] at h
    simpa using h
  have hacc : acc = collectedPods env cj podlist := by
    have : (collectLoop env.parseRef (ownerPred cj)
        (podlist.filter (selectorMatches (buildSet (jobSelectorLabels cj))))
        []).2 = acc := by rw [hcl]
    rw [← this]
    rfl
  have hDel : Delete env c' true tr' =
      (((((((((tr' ++ [Event.log ("delete " ++ formatMeta c'.job.meta)])
        ++ [Event.getJob cj.meta.namespace' cj.meta.name])
        ++ [Event.listPods cj.meta.namespace' (buildSet (jobSelectorLabels cj))])
        ++ evts)
        ++ [Event.log "deleting current job"])
        ++ [Event.deleteJob cj.meta.namespace' cj.meta.name])
        ++ [Event.getJob cj.meta.namespace' cj.meta.name])
        ++ podDeleteTrace cj.meta.namespace'
            (fun p => "deleting pod " ++ p.meta.name) acc), none) := by
    simp only [Delete, hcns, hcname, hget0,
      collectPods_uniform env cj podlist hpods, hcl, hdel]
    rw [waitForObjectDeletion_found env cj.meta.namespace' cj.meta.name eNF cj
      hget2 hnf _ (by simp [remoteTrace, Event.isLog])]
    simp only [deletePods]
    rw [podDeleteLoop_success env cj.meta.namespace' _ hdelpod]
    simp [hacc, List.append_assoc]
  rw [hDel, hacc]
  refine ⟨rfl, ?_⟩
  have hpdt := remoteTrace_podDeleteTrace cj.meta.namespace'
    (fun p => "deleting pod " ++ p.meta.name) (collectedPods env cj podlist)
  simp only [remoteTrace] at hpdt hclrem
  simp only [Event.isLog] at hpdt hclrem
  simp [remoteTrace, Event.isLog, List.filter_append, hclrem, hpdt]

/-- C1 (amended): against an environment where the named object exists,
all mutations succeed, and (for the src/job.go variant) a deleted object
stops resolving:
In the part_000 `Upsert` the remote calls are, in order: fetch, list the
old object's pods, delete the old object, create the stripped desired
object, and only then delete the pods collected from the old object —
the pod deletions come after the create call, as the claim states.
In the src/job.go `Upsert`, which delegates the replacement to `Delete`,
the remote calls are: fetch, fetch, list, delete the old object, fetch
(deletion poll), delete the collected pods, and only then create — the
pod deletions come before the create call, contrary to the claim; the
deleted pods are still exactly those collected from the old object. -/
theorem Upsert_replace_order (env : Env) (c : JobControl) (tr : List Event)
    (cj jres : Job) (podlist : List Pod) (eNF : Error)
    (hns : cj.meta.namespace' = c.job.meta.namespace')
    (hname : cj.meta.name = c.job.meta.name)
    (hpods : ∀ rtr, env.podsInNamespace rtr c.job.meta.namespace' = .ok podlist)
    (hdel : ∀ rtr, env.deleteJob rtr c.job.meta.namespace' c.job.meta.name
      = none)
    (hcreate : ∀ rtr, env.createJob rtr c.job.meta.namespace' (stripJob c.job)
      = .ok jres)
    (hdelpod : ∀ rtr p, env.deletePod rtr c.job.meta.namespace' p = none) :
    ((∀ rtr, env.getJob rtr c.job.meta.namespace' c.job.meta.name = .ok cj) →
      (UpsertP0 env c tr).2 = none
      ∧ remoteTrace (UpsertP0 env c tr).1 = remoteTrace tr
          ++ [Event.getJob c.job.meta.namespace' c.job.meta.name,
              Event.listPods c.job.meta.namespace'
                (buildSet (jobSelectorLabels cj)),
              Event.deleteJob c.job.meta.namespace' c.job.meta.name,
              Event.createJob c.job.meta.namespace' (stripJob c.job)]
          ++ (collectedPods env cj podlist).map
              (fun kv => Event.deletePod c.job.meta.namespace' kv.2.meta.name))
    ∧ (c.clientset = true →
       (∀ rtr, env.getJob rtr c.job.meta.namespace' c.job.meta.name =
         if Event.deleteJob c.job.meta.namespace' c.job.meta.name ∈ rtr
         then .error eNF else .ok cj) →
       IsNotFound (some (convertCore eNF "")) = true →
       Event.deleteJob c.job.meta.namespace' c.job.meta.name ∉ remoteTrace tr →
      (Upsert env c tr).2 = none
      ∧ remoteTrace (Upsert env c tr).1 = remoteTrace tr
          ++ [Event.getJob c.job.meta.namespace' c.job.meta.name,
              Event.getJob c.job.meta.namespace' c.job.meta.name,
              Event.listPods c.job.meta.namespace'
                (buildSet (jobSelectorLabels cj)),
              Event.deleteJob c.job.meta.namespace' c.job.meta.name,
              Event.getJob c.job.meta.namespace' c.job.meta.name]
          ++ (collectedPods env cj podlist).map
              (fun kv => Event.deletePod c.job.meta.namespace' kv.2.meta.name)
          ++ [Event.createJob c.job.meta.namespace' (stripJob c.job)]) := by
  constructor
  · intro hget
    have hpodsCj : ∀ rtr, env.podsInNamespace rtr cj.meta.namespace'
        = .ok podlist := by
      intro rtr
      rw [hns]
      exact hpods rtr
    rcases hcl : collectLoop env.parseRef (ownerPred cj)
        (podlist.filter (selectorMatches (buildSet (jobSelectorLabels cj)))) []
        with ⟨evts, acc⟩
    have hclrem : remoteTrace evts = [] := by
      have h := collectLoop_remote env.parseRef (ownerPred cj)
        (podlist.filter (selectorMatches (buildSet (jobSelectorLabels cj)))) []
      rw [hcl] at h
      simpa using h
    have hacc : acc = collectedPods env cj podlist := by
      have h : (collectLoop env.parseRef (ownerPred cj)
          (podlist.filter (selectorMatches (buildSet (jobSelectorLabels cj))))
          []).2 = acc := by rw [hcl]
      rw [← h]
      rfl
    have hP : UpsertP0 env c tr =
        ((((((((((((tr ++ [Event.log ("upsert " ++ formatMeta c.job.meta)])
          ++ [Event.getJob c.job.meta.namespace' c.job.meta.name])
          ++ [Event.log ("currentJob: " ++ cj.meta.uid)])
          ++ [Event.listPods cj.meta.namespace'
              (buildSet (jobSelectorLabels cj))])
          ++ evts)
          ++ [Event.log "deleting current job"])
          ++ [Event.deleteJob c.job.meta.namespace' c.job.meta.name])
          ++ [Event.log "creating new job"])
          ++ [Event.createJob c.job.meta.namespace' (stripJob c.job)])
          ++ [Event.log "job created successfully"])
          ++ [Event.log "deleting pods created by previous job"])
          ++ podDeleteTrace c.job.meta.namespace'
              (fun p => "deleting pod " ++ formatMeta p.meta)
              (collectedPods env cj podlist), none) := by
      simp only [UpsertP0, hget, upsertFetch,
        collectPods_uniform env cj podlist hpodsCj, hcl, hdel, hcreate,
        podDeleteLoop_success env c.job.meta.namespace'
          (fun p => "deleting pod " ++ formatMeta p.meta) hdelpod]
    rw [hP]
    refine ⟨rfl, ?_⟩
    have hpdt := remoteTrace_podDeleteTrace c.job.meta.namespace'
      (fun p => "deleting pod " ++ formatMeta p.meta)
      (collectedPods env cj podlist)
    simp only [remoteTrace] at hpdt hclrem
    simp only [Event.isLog] at hpdt hclrem
    simp [remoteTrace, Event.isLog, List.filter_append, hclrem, hpdt, hns]
  · intro hclient hget2 hnf htr
    have hget0 : env.getJob
        (remoteTrace (tr ++ [Event.log ("upsert " ++ formatMeta c.job.meta)]))
        c.job.meta.namespace' c.job.meta.name = .ok cj := by
      rw [hget2, remoteTrace_log]
      exact if_neg htr
    have hget2Cj : ∀ rtr, env.getJob rtr cj.meta.namespace' cj.meta.name =
        if Event.deleteJob cj.meta.namespace' cj.meta.name ∈ rtr
        then .error eNF else .ok cj := by
      intro rtr
      rw [hns, hname]
      exact hget2 rtr
    have hpodsCj : ∀ rtr, env.podsInNamespace rtr cj.meta.namespace'
        = .ok podlist := by
      intro rtr
      rw [hns]
      exact hpods rtr
    have hdelCj : ∀ rtr, env.deleteJob rtr cj.meta.namespace' cj.meta.name
        = none := by
      intro rtr
      rw [hns, hname]
      exact hdel rtr
    have hdelpodCj : ∀ rtr p, env.deletePod rtr cj.meta.namespace' p = none := by
      intro rtr p
      rw [hns]
      exact hdelpod rtr p
    have htr1 : Event.deleteJob cj.meta.namespace' cj.meta.name ∉
        remoteTrace ((tr ++ [Event.log ("upsert " ++ formatMeta c.job.meta)])
          ++ [Event.getJob c.job.meta.namespace' c.job.meta.name]) := by
      rw [hns, hname]
      simp only [remoteTrace_append, remoteTrace_single_log,
        remoteTrace_single_getJob, List.append_nil]
      intro hmem
      rcases List.mem_append.mp hmem with h | h
      · exact htr h
      · simp at h
    have hDel := Delete_uniform_success env
      { job := defaulted cj, clientset := true }
      ((tr ++ [Event.log ("upsert " ++ formatMeta c.job.meta)])
        ++ [Event.getJob c.job.meta.namespace' c.job.meta.name])
      cj podlist eNF (by rw [defaulted_meta]) (by rw [defaulted_meta])
      hget2Cj hnf htr1 hpodsCj hdelCj hdelpodCj
    rcases hd : Delete env { job := defaulted cj, clientset := true } true
        ((tr ++ [Event.log ("upsert " ++ formatMeta c.job.meta)])
          ++ [Event.getJob c.job.meta.namespace' c.job.meta.name])
        with ⟨trd, rd⟩
    rw [hd] at hDel
    have hrd : rd = none := by simpa using hDel.1
    have htrd : remoteTrace trd =
        (remoteTrace tr ++ [Event.getJob c.job.meta.namespace' c.job.meta.name])
          ++ [Event.getJob cj.meta.namespace' cj.meta.name,
              Event.listPods cj.meta.namespace' (buildSet (jobSelectorLabels cj)),
              Event.deleteJob cj.meta.namespace' cj.meta.name,
              Event.getJob cj.meta.namespace' cj.meta.name]
          ++ (collectedPods env cj podlist).map
              (fun kv => Event.deletePod cj.meta.namespace' kv.2.meta.name) := by
      have h := hDel.2
      simp only at h
      rw [h]
      simp [remoteTrace, Event.isLog, List.filter_append]
    subst hrd
    have hU : Upsert env c tr =
        ((trd ++ [Event.log "creating new job"])
          ++ [Event.createJob c.job.meta.namespace' (stripJob c.job)], none) := by
      simp only [Upsert, hget0, upsertFetch, hclient, NewJobControl_eq, hd]
      rw [upsertCreate_success env c jres hcreate]
    rw [hU]
    refine ⟨rfl, ?_⟩
    simp only [remoteTrace_append, remoteTrace_single_log,
      remoteTrace_single_createJob, htrd, hns, hname]
    simp [List.append_assoc]

/-- Witness for C1 (amended): both orderings realized on concrete runs —
the part_000 Upsert replacing `jobOld` over `envStatic` succeeds, and the
src/job.go Upsert over `envReplace` succeeds. -/
theorem Upsert_replace_order_witness :
    (UpsertP0 envStatic { job := jobDesired, clientset := true } []).2 = none
    ∧ (Upsert envReplace { job := jobDesired, clientset := true } []).2 = none := by
  constructor
  · exact ((Upsert_replace_order envStatic { job := jobDesired, clientset := true }
      [] jobOld (stripJob jobDesired) [podOld] (.notFound "not found")
      rfl rfl (fun _ => rfl) (fun _ => rfl) (fun _ => rfl)
      (fun _ _ => rfl)).1 (fun _ => rfl)).1
  · exact ((Upsert_replace_order envReplace { job := jobDesired, clientset := true }
      [] jobOld (stripJob jobDesired) [podOld] (.notFound "not found")
      rfl rfl (fun _ => rfl) (fun _ => rfl) (fun _ => rfl)
      (fun _ _ => rfl)).2 rfl (fun _ => rfl) rfl
      (by simp [remoteTrace])).1

end Rigging
